import Mathlib

/-
Verification development for the anonymous chat relay backend
(session registry, matchmaking queue, rooms, invites, rate limiter,
and the socket event handlers).  The in-process (non-Redis) backend is
modelled directly from the JavaScript source; JavaScript `Map`s become
insertion-ordered association lists, `Date.now()` timestamps become
explicit `Int` arguments, and the random code stream of the invite
allocator becomes an explicit oracle argument.
-/

namespace Whisper

/-! ## Association-list maps (model of JavaScript `Map`) -/

/-- Lookup in an insertion-ordered association list (JS `Map.get`). -/
def mapGet {α : Type} (m : List (String × α)) (k : String) : Option α :=
  match m with
  | [] => none
  | (k', v) :: rest => if k' = k then some v else mapGet rest k

/-- Upsert preserving insertion order (JS `Map.set`). -/
def mapSet {α : Type} (m : List (String × α)) (k : String) (v : α) :
    List (String × α) :=
  match m with
  | [] => [(k, v)]
  | (k', v') :: rest =>
    if k' = k then (k, v) :: rest else (k', v') :: mapSet rest k v

/-- Removal of a key (JS `Map.delete`; keys are unique in a JS `Map`,
so removing every occurrence agrees with it). -/
def mapDelete {α : Type} (m : List (String × α)) (k : String) :
    List (String × α) :=
  match m with
  | [] => []
  | (k', v') :: rest =>
    if k' = k then mapDelete rest k else (k', v') :: mapDelete rest k

/-! ## Data model -/

/-- Pair of a session id and the socket (connection) id recorded for it;
used both for waiting-queue entries and for the two ends of a room. -/
structure Participant where
  sessionId : String
  socketId : String
deriving DecidableEq, Repr

/-- Room record: exactly two participants (`matchmaking.js`). -/
structure Room where
  session1 : Participant
  session2 : Participant
deriving DecidableEq, Repr

/-- Invite record stored under its code (`invites.js`). -/
structure Invite where
  sessionId : String
  socketId : String
  createdAt : Int
deriving DecidableEq, Repr

/-- Fixed-window rate counter (`rateLimiter.js`). -/
structure RateEntry where
  count : Nat
  windowStart : Int
deriving DecidableEq, Repr

/-- Modelled from the spec: the session registry record of `sessions.js`,
which is not among the provided sources.  Spec 4.B: a session maps its
`sessionId` to the current `connectionId` and an optional `roomId`
(`lastSeenAt`/TTL bookkeeping is irrelevant to the claims and omitted). -/
structure SessionData where
  socketId : String
  roomId : Option String
deriving DecidableEq, Repr

/-- Whole in-memory server state: the live sockets with their
`socket.sessionId` binding, the session registry, the matchmaking queue,
the room map, the invite map and the rate-limit map. -/
structure ServerState where
  conns : List (String × Option String)
  sessions : List (String × SessionData)
  waitingQueue : List Participant
  rooms : List (String × Room)
  invites : List (String × Invite)
  rateLimits : List (String × RateEntry)
deriving DecidableEq, Repr

/-- Initial state of a freshly started server: everything empty. -/
def initState : ServerState :=
  { conns := [], sessions := [], waitingQueue := [], rooms := [],
    invites := [], rateLimits := [] }

/-! ## Session registry (modelled from the spec) -/

/-- Modelled from the spec: `getSession(sessionId)` of the missing
`sessions.js` returns the session record or none (spec 4.B). -/
def getSession (st : ServerState) (sid : String) : Option SessionData :=
  mapGet st.sessions sid

/-- Modelled from the spec: `addSession(sessionId, connectionId)` of the
missing `sessions.js` upserts the record, updating the connection id; the
room binding of an existing record is left as is (spec 4.B gives the
upsert only the connection id, and spec 8 requires room members to keep
their `roomId` binding). -/
def addSession (st : ServerState) (sid sock : String) : ServerState :=
  match mapGet st.sessions sid with
  | some s =>
    { st with sessions := mapSet st.sessions sid { socketId := sock, roomId := s.roomId } }
  | none =>
    { st with sessions := mapSet st.sessions sid { socketId := sock, roomId := none } }

/-- Modelled from the spec: `setSessionRoom(sessionId, roomId)` of the
missing `sessions.js`; no-op if the session is missing (spec 4.B). -/
def setSessionRoom (st : ServerState) (sid roomId : String) : ServerState :=
  match mapGet st.sessions sid with
  | some s =>
    { st with sessions := mapSet st.sessions sid { s with roomId := some roomId } }
  | none => st

/-- Modelled from the spec: `clearSessionRoom(sessionId)` of the missing
`sessions.js`; no-op if the session is missing (spec 4.B). -/
def clearSessionRoom (st : ServerState) (sid : String) : ServerState :=
  match mapGet st.sessions sid with
  | some s =>
    { st with sessions := mapSet st.sessions sid { s with roomId := none } }
  | none => st

/-- Modelled from the spec: `removeSession(sessionId)` of the missing
`sessions.js` deletes the record (spec 4.B). -/
def removeSession (st : ServerState) (sid : String) : ServerState :=
  { st with sessions := mapDelete st.sessions sid }

/-! ## Rate limiter (`rateLimiter.js`, memory backend) -/

def MAX_MESSAGES_PER_WINDOW : Nat := 30

def WINDOW_MS : Int := 60 * 1000

/-- Core of `isAllowed`: given `Date.now()` and the current map entry for
the session, return the verdict and the entry afterwards (`rateLimiter.js`
lines 28-38; the denied branch leaves the entry untouched). -/
def isAllowed (now : Int) (entry : Option RateEntry) : Bool × RateEntry :=
  match entry with
  | none => (true, { count := 1, windowStart := now })
  | some e =>
    if now - e.windowStart > WINDOW_MS then
      (true, { count := 1, windowStart := now })
    else if e.count ≥ MAX_MESSAGES_PER_WINDOW then
      (false, e)
    else
      (true, { count := e.count + 1, windowStart := e.windowStart })

/-- State-level `isAllowed(sessionId)`: reads and writes the
`rateLimits` map. -/
def isAllowedS (st : ServerState) (sid : String) (now : Int) :
    Bool × ServerState :=
  let (ok, e') := isAllowed now (mapGet st.rateLimits sid)
  (ok, { st with rateLimits := mapSet st.rateLimits sid e' })

/-- Rate-limit map after `n` calls to `isAllowed` for one session, all at
time `t`, starting with no entry. -/
def rateState (t : Int) : Nat → Option RateEntry
  | 0 => none
  | n + 1 => some (isAllowed t (rateState t n)).2

/-- `clearLimit(sessionId)` (`rateLimiter.js` lines 65-68). -/
def clearLimit (st : ServerState) (sid : String) : ServerState :=
  { st with rateLimits := mapDelete st.rateLimits sid }

/-! ## Invites (`invites.js`) -/

def INVITE_TTL_MS : Int := 5 * 60 * 1000

/-- Uppercase hex digit (0-15). -/
def hexDigit (n : Nat) : Char :=
  if n < 10 then Char.ofNat (48 + n) else Char.ofNat (55 + n)

/-- Rendering of `crypto.randomBytes(2).toString('hex').toUpperCase()`
for the random 16-bit value `n`: four uppercase hex characters. -/
def hexUpper4 (n : Nat) : String :=
  let m := n % 65536
  String.mk [hexDigit (m / 4096), hexDigit (m / 256 % 16),
             hexDigit (m / 16 % 16), hexDigit (m % 16)]

/-- Invite code formed from a random 16-bit draw. -/
def talkCode (n : Nat) : String :=
  "TALK-" ++ hexUpper4 n

/-- Uppercase hexadecimal character: a digit or `A` … `F`. -/
def isUpperHexChar (c : Char) : Prop :=
  ('0' ≤ c ∧ c ≤ '9') ∨ ('A' ≤ c ∧ c ≤ 'F')

instance (c : Char) : Decidable (isUpperHexChar c) := by
  unfold isUpperHexChar
  infer_instance

/-- Code of the form `TALK-` followed by 4 uppercase hex characters. -/
def talkFormat (code : String) : Prop :=
  ∃ s, code = "TALK-" ++ s ∧ s.length = 4 ∧ ∀ ch ∈ s.data, isUpperHexChar ch

/-- Model of JavaScript `String.prototype.toUpperCase` (character-wise
upper-casing; the ASCII mapping suffices for the invite-code alphabet). -/
def jsToUpper (s : String) : String :=
  String.mk (s.data.map Char.toUpper)

/-- Model of JavaScript `String.prototype.trim`: whitespace stripped from
both ends. -/
def jsTrim (s : String) : String :=
  String.mk
    (((s.data.dropWhile Char.isWhitespace).reverse.dropWhile
        Char.isWhitespace).reverse)

/-- Memory-mode `createInvite` (`invites.js` lines 29-35): on a code
collision it recurses with the next random draw, with no bound on the
number of attempts.  The random stream is modelled by the list `cands`
of 16-bit draws; `none` means the modelled prefix of the stream was
exhausted while every draw collided. -/
def createInviteMem (invites : List (String × Invite)) (sid sock : String)
    (now : Int) : List Nat → Option (String × List (String × Invite))
  | [] => none
  | n :: rest =>
    let code := talkCode n
    if (mapGet invites code).isSome then
      createInviteMem invites sid sock now rest
    else
      some (code, mapSet invites code { sessionId := sid, socketId := sock, createdAt := now })

/-- Redis-mode `createInvite` attempt loop (`invites.js` lines 38-51):
`live` is the set of codes currently present (SET NX fails on them);
`cands` is the random stream, `j` the index of the next draw, and the
first argument the number of attempts remaining out of 10.  `Except.error`
models `throw new Error('Failed to allocate invite code')`. -/
def redisAttempts (cands : Nat → Nat) (live : List String) :
    Nat → Nat → Except Unit String
  | 0, _ => Except.error ()
  | k + 1, j =>
    let code := talkCode (cands j)
    if live.contains code then redisAttempts cands live k (j + 1)
    else Except.ok code

/-- Redis-mode `createInvite`: ten attempts starting at draw 0. -/
def createInviteRedis (cands : Nat → Nat) (live : List String) :
    Except Unit String :=
  redisAttempts cands live 10 0

/-- `redeemInvite(code)` in memory mode (`invites.js` lines 59-67):
returns the invite and deletes it; an expired invite (age strictly above
the TTL) is deleted and `none` is returned, as for a missing code. -/
def redeemInvite (invites : List (String × Invite)) (code : String)
    (now : Int) : Option Invite × List (String × Invite) :=
  match mapGet invites code with
  | none => (none, invites)
  | some inv =>
    if now - inv.createdAt > INVITE_TTL_MS then
      (none, mapDelete invites code)
    else
      (some inv, mapDelete invites code)

/-- First invite code owned by `sid`, in insertion order
(the loop of `cancelInvite`, `invites.js` lines 86-91). -/
def findInviteCode (invites : List (String × Invite)) (sid : String) :
    Option String :=
  match invites with
  | [] => none
  | (code, inv) :: rest =>
    if inv.sessionId = sid then some code else findInviteCode rest sid

/-- `cancelInvite(sessionId)` in memory mode: deletes the first invite
owned by the session, if any. -/
def cancelInvite (st : ServerState) (sid : String) : ServerState :=
  match findInviteCode st.invites sid with
  | some code => { st with invites := mapDelete st.invites code }
  | none => st

/-- `hasInvite(sessionId)` in memory mode (`invites.js` lines 109-114). -/
def hasInvite (st : ServerState) (sid : String) : Bool :=
  (findInviteCode st.invites sid).isSome

/-! ## Matchmaking (`matchmaking.js`, memory backend) -/

/-- Removal of the first queue entry of a session
(`leaveQueue`: `findIndex` + `splice(index, 1)`). -/
def removeFirst (q : List Participant) (sid : String) : List Participant :=
  match q with
  | [] => []
  | e :: rest => if e.sessionId = sid then rest else e :: removeFirst rest sid

/-- `leaveQueue(sessionId)` on the state. -/
def leaveQueue (st : ServerState) (sid : String) : ServerState :=
  { st with waitingQueue := removeFirst st.waitingQueue sid }

/-- `isInQueue(sessionId)` (`matchmaking.js` lines 129-131). -/
def isInQueue (st : ServerState) (sid : String) : Bool :=
  st.waitingQueue.any (fun w => w.sessionId = sid)

/-- The `popValid` loop of `joinQueue` (`matchmaking.js` lines 39-48):
shift entries off the front, discarding stale ones (session gone, socket
changed, or already in a room), until a valid waiter is found. -/
def popValid (sess : List (String × SessionData)) :
    List Participant → Option Participant × List Participant
  | [] => (none, [])
  | e :: rest =>
    match mapGet sess e.sessionId with
    | some s =>
      if s.socketId = e.socketId ∧ s.roomId = none then (some e, rest)
      else popValid sess rest
    | none => popValid sess rest

/-- Memory-mode `joinQueue(sessionId, socketId)` (`matchmaking.js` lines
33-68).  `freshRoomId` models the `uuidv4()` draw.  Returns the match,
if any, and the state afterwards. -/
def joinQueue (st : ServerState) (sid sock freshRoomId : String) :
    Option (String × Participant × Participant) × ServerState :=
  if isInQueue st sid then (none, st)
  else
    let q1 := st.waitingQueue ++ [{ sessionId := sid, socketId := sock }]
    let (u1, q2) := popValid st.sessions q1
    let (u2, q3) := popValid st.sessions q2
    match u1, u2 with
    | some a, some b =>
      let st1 := { st with waitingQueue := q3,
                           rooms := mapSet st.rooms freshRoomId { session1 := a, session2 := b } }
      let st2 := setSessionRoom st1 a.sessionId freshRoomId
      let st3 := setSessionRoom st2 b.sessionId freshRoomId
      (some (freshRoomId, a, b), st3)
    | some a, none => (none, { st with waitingQueue := a :: q3 })
    | none, _ => (none, { st with waitingQueue := q3 })

/-- `getRoomBySessionId(sessionId)` (`matchmaking.js` lines 153-162):
first room, in insertion order, containing the session on either end. -/
def getRoomBySessionId (st : ServerState) (sid : String) :
    Option (String × Room) :=
  st.rooms.find? (fun p =>
    p.2.session1.sessionId = sid ∨ p.2.session2.sessionId = sid)

/-- Current socket of a room member, preferring the session registry and
falling back to the socket recorded in the room (`getPeerSocketId`,
`matchmaking.js` lines 176-194; the registry socket is used only when it
is a truthy, i.e. non-empty, string). -/
def peerCurrentSocket (st : ServerState) (peer : Participant) : String :=
  match getSession st peer.sessionId with
  | some ps => if ps.socketId = "" then peer.socketId else ps.socketId
  | none => peer.socketId

/-- `getPeerSocketId(roomId, sessionId)`. -/
def getPeerSocketId (st : ServerState) (roomId sid : String) :
    Option String :=
  match mapGet st.rooms roomId with
  | none => none
  | some room =>
    if room.session1.sessionId = sid then
      some (peerCurrentSocket st room.session2)
    else if room.session2.sessionId = sid then
      some (peerCurrentSocket st room.session1)
    else none

/-- `destroyRoom(roomId)` (`matchmaking.js` lines 201-210): clears both
room bindings and deletes the room; no-op when the room is missing. -/
def destroyRoom (st : ServerState) (roomId : String) : ServerState :=
  match mapGet st.rooms roomId with
  | none => st
  | some room =>
    let st1 := clearSessionRoom st room.session1.sessionId
    let st2 := clearSessionRoom st1 room.session2.sessionId
    { st2 with rooms := mapDelete st2.rooms roomId }

/-- `setRoom` + the two reverse bindings (`_setRoom`, `matchmaking.js`
lines 241-245). -/
def setRoomFull (st : ServerState) (roomId : String) (room : Room) :
    ServerState :=
  let st1 := { st with rooms := mapSet st.rooms roomId room }
  let st2 := setSessionRoom st1 room.session1.sessionId roomId
  setSessionRoom st2 room.session2.sessionId roomId

/-! ## Event handlers (`handlers.js`) -/

/-- Events the server emits back over sockets. -/
inductive EventOut
  | joined
  | errorMsg (message : String)
  | waiting (message : String)
  | matched (roomId : String)
  | inviteCreated (code : String)
  | peerKey (publicKey : String)
  | receiveEncrypted (encrypted : String)
  | peerSecurityAlert (data : Option String)
  | peerReady
  | chatEnded (reason : String)
deriving DecidableEq, Repr

/-- One emission: target socket id and the event sent to it. -/
structure Emit where
  target : String
  event : EventOut
deriving DecidableEq, Repr

/-- Truthy `socket.sessionId` of a live socket: the binding must be
present and a non-empty string. -/
def liveSession (st : ServerState) (c : String) : Option String :=
  match (mapGet st.conns c).join with
  | none => none
  | some s => if s = "" then none else some s

def MAX_ENCRYPTED_BYTES : Int := 35 * 1024 * 1024

/-- Padding count of `estimateBase64Bytes`: 2 if the string ends with
`==`, 1 if it ends with `=`, else 0 (`handlers.js` line 108). -/
def padCount (s : String) : Nat :=
  if s.data.reverse.take 2 = ['=', '='] then 2
  else if s.data.reverse.take 1 = ['='] then 1
  else 0

/-- `estimateBase64Bytes(b64)` (`handlers.js` lines 105-110); the
subtraction is JavaScript number arithmetic, so the result is an `Int`
and may be negative. -/
def estimateBase64Bytes (s : String) : Int :=
  if s.data.isEmpty then 0
  else ((s.length * 3 / 4 : Nat) : Int) - (padCount s : Int)

/-- `handleDisconnectFromRoom` (`handlers.js` lines 396-413): notify the
peer, if any, and destroy the room. -/
def handleDisconnectFromRoom (st : ServerState) (sid : String) :
    List Emit × ServerState :=
  if sid = "" then ([], st)
  else
    match getRoomBySessionId st sid with
    | none => ([], st)
    | some (roomId, _) =>
      let em :=
        match getPeerSocketId st roomId sid with
        | some p => [⟨p, EventOut.chatEnded "The other person has left."⟩]
        | none => []
      (em, destroyRoom st roomId)

/-- Shared cleanup sequence: the body of both the `disconnect` handler
(`handlers.js` lines 380-389) and `cleanupSessionState` (lines 419-426):
leave queue, cancel invite, room cleanup, clear rate counter, remove the
session. -/
def sessionCleanup (st : ServerState) (sid : String) :
    List Emit × ServerState :=
  let st1 := leaveQueue st sid
  let st2 := cancelInvite st1 sid
  let (em, st3) := handleDisconnectFromRoom st2 sid
  let st4 := clearLimit st3 sid
  (em, removeSession st4 sid)

/-- `cleanupSessionState(io, sessionId)` (`handlers.js` lines 419-426). -/
def cleanupSessionState (st : ServerState) (sid : String) :
    List Emit × ServerState :=
  if sid = "" then ([], st) else sessionCleanup st sid

/-- The `disconnect` handler for socket `c`: the socket leaves the live
set, and if it still had a truthy session binding the full cleanup runs
for that session. -/
def disconnectHandler (st : ServerState) (c : String) :
    List Emit × ServerState :=
  let binding := liveSession st c
  let st0 := { st with conns := mapDelete st.conns c }
  match binding with
  | none => ([], st0)
  | some sid => sessionCleanup st0 sid

/-- The `join` handler (`handlers.js` lines 120-141).  On a takeover the
previous socket's binding is nulled, the previous socket is force-closed
(firing its `disconnect` handler), and `cleanupSessionState` runs; then
the session is registered on the new socket. -/
def joinHandler (st : ServerState) (c : String) (payload : Option String) :
    List Emit × ServerState :=
  match payload with
  | none => ([⟨c, EventOut.errorMsg "Invalid session ID"⟩], st)
  | some sid =>
    if sid = "" then ([⟨c, EventOut.errorMsg "Invalid session ID"⟩], st)
    else
      match getSession st sid with
      | some existing =>
        if existing.socketId ≠ c then
          let (em1, st1) :=
            match mapGet st.conns existing.socketId with
            | some _ =>
              let stA := { st with conns := mapSet st.conns existing.socketId none }
              disconnectHandler stA existing.socketId
            | none => ([], st)
          let (em2, st2) := cleanupSessionState st1 sid
          let st3 := addSession st2 sid c
          let st4 := { st3 with conns := mapSet st3.conns c (some sid) }
          (em1 ++ em2 ++ [⟨c, EventOut.joined⟩], st4)
        else
          let st3 := addSession st sid c
          let st4 := { st3 with conns := mapSet st3.conns c (some sid) }
          ([⟨c, EventOut.joined⟩], st4)
      | none =>
        let st3 := addSession st sid c
        let st4 := { st3 with conns := mapSet st3.conns c (some sid) }
        ([⟨c, EventOut.joined⟩], st4)

/-- The `find-random` handler (`handlers.js` lines 146-172);
`fresh` models the `uuidv4()` room id drawn on a match. -/
def findRandomHandler (st : ServerState) (c fresh : String) :
    List Emit × ServerState :=
  match liveSession st c with
  | none => ([⟨c, EventOut.errorMsg "Session not found"⟩], st)
  | some sid =>
    match getSession st sid with
    | none => ([⟨c, EventOut.errorMsg "Session not found"⟩], st)
    | some session =>
      if session.roomId.isSome then
        ([⟨c, EventOut.errorMsg "You are already in a chat"⟩], st)
      else
        let st1 := if hasInvite st sid then cancelInvite st sid else st
        let (m, st2) := joinQueue st1 sid c fresh
        match m with
        | some (roomId, u1, u2) =>
          ([⟨u1.socketId, EventOut.matched roomId⟩,
            ⟨u2.socketId, EventOut.matched roomId⟩], st2)
        | none => ([⟨c, EventOut.waiting "Looking for someone online..."⟩], st2)

/-- The `cancel-search` handler (`handlers.js` lines 177-183). -/
def cancelSearchHandler (st : ServerState) (c : String) :
    List Emit × ServerState :=
  match liveSession st c with
  | none => ([], st)
  | some sid => handleDisconnectFromRoom (leaveQueue st sid) sid

/-- The `create-invite` handler (`handlers.js` lines 188-212); `cands` is
the random 16-bit draw stream consumed by the allocator.  A run past the
modelled stream produces no emission. -/
def createInviteHandler (st : ServerState) (c : String) (cands : List Nat)
    (now : Int) : List Emit × ServerState :=
  match liveSession st c with
  | none => ([⟨c, EventOut.errorMsg "Session not found"⟩], st)
  | some sid =>
    match getSession st sid with
    | none => ([⟨c, EventOut.errorMsg "Session not found"⟩], st)
    | some session =>
      if session.roomId.isSome then
        ([⟨c, EventOut.errorMsg "You are already in a chat"⟩], st)
      else if isInQueue st sid then
        ([⟨c, EventOut.errorMsg "Cancel search before creating an invite"⟩], st)
      else
        let st1 := if hasInvite st sid then cancelInvite st sid else st
        match createInviteMem st1.invites sid c now cands with
        | some (code, inv') =>
          ([⟨c, EventOut.inviteCreated code⟩], { st1 with invites := inv' })
        | none => ([], st1)

/-- The `join-invite` handler (`handlers.js` lines 217-270). -/
def joinInviteHandler (st : ServerState) (c : String)
    (payload : Option String) (now : Int) (fresh : String) :
    List Emit × ServerState :=
  match liveSession st c with
  | none => ([⟨c, EventOut.errorMsg "Session not found"⟩], st)
  | some sid =>
    match getSession st sid with
    | none => ([⟨c, EventOut.errorMsg "Session not found"⟩], st)
    | some session =>
      if session.roomId.isSome then
        ([⟨c, EventOut.errorMsg "You are already in a chat"⟩], st)
      else if isInQueue st sid then
        ([⟨c, EventOut.errorMsg "Cancel search before joining an invite"⟩], st)
      else
        match payload with
        | none => ([⟨c, EventOut.errorMsg "Invalid invite code"⟩], st)
        | some code =>
          if code = "" then ([⟨c, EventOut.errorMsg "Invalid invite code"⟩], st)
          else
            let norm := jsTrim (jsToUpper code)
            let (invOpt, invites') := redeemInvite st.invites norm now
            let stR := { st with invites := invites' }
            match invOpt with
            | none => ([⟨c, EventOut.errorMsg "Invite code not found or expired"⟩], stR)
            | some inv =>
              match getSession stR inv.sessionId with
              | none => ([⟨c, EventOut.errorMsg "Invite code not found or expired"⟩], stR)
              | some inviter =>
                if inviter.roomId.isSome then
                  ([⟨c, EventOut.errorMsg "Invite code not found or expired"⟩], stR)
                else if inv.sessionId = sid then
                  ([⟨c, EventOut.errorMsg "Cannot join your own invite"⟩], stR)
                else
                  let st1 := leaveQueue stR inv.sessionId
                  let st2 := leaveQueue st1 sid
                  let st3 := setSessionRoom st2 inv.sessionId fresh
                  let st4 := setSessionRoom st3 sid fresh
                  let room : Room :=
                    { session1 := ⟨inv.sessionId, inv.socketId⟩,
                      session2 := ⟨sid, c⟩ }
                  let st5 := setRoomFull st4 fresh room
                  ([⟨inv.socketId, EventOut.matched fresh⟩,
                    ⟨c, EventOut.matched fresh⟩], st5)

/-- The `key-exchange` handler (`handlers.js` lines 275-289): every
failed precondition drops the event silently. -/
def keyExchangeHandler (st : ServerState) (c : String)
    (payload : Option String) : List Emit × ServerState :=
  match liveSession st c with
  | none => ([], st)
  | some sid =>
    match payload with
    | none => ([], st)
    | some pk =>
      if pk = "" then ([], st)
      else
        match getRoomBySessionId st sid with
        | none => ([], st)
        | some (roomId, _) =>
          match getPeerSocketId st roomId sid with
          | none => ([], st)
          | some p => ([⟨p, EventOut.peerKey pk⟩], st)

/-- The `send-encrypted` handler (`handlers.js` lines 294-318): the rate
check runs before the payload is validated. -/
def sendEncryptedHandler (st : ServerState) (c : String)
    (payload : Option String) (now : Int) : List Emit × ServerState :=
  match liveSession st c with
  | none => ([], st)
  | some sid =>
    let (ok, st1) := isAllowedS st sid now
    if ok then
      match payload with
      | none => ([], st1)
      | some enc =>
        if enc = "" then ([], st1)
        else if estimateBase64Bytes enc > MAX_ENCRYPTED_BYTES then
          ([⟨c, EventOut.errorMsg "Payload too large."⟩], st1)
        else
          match getRoomBySessionId st1 sid with
          | none => ([], st1)
          | some (roomId, _) =>
            match getPeerSocketId st1 roomId sid with
            | none => ([], st1)
            | some p => ([⟨p, EventOut.receiveEncrypted enc⟩], st1)
    else ([⟨c, EventOut.errorMsg "Too many messages. Please slow down."⟩], st1)

/-- The `security-alert` handler (`handlers.js` lines 323-334): the data
is relayed verbatim, with no validation. -/
def securityAlertHandler (st : ServerState) (c : String)
    (data : Option String) : List Emit × ServerState :=
  match liveSession st c with
  | none => ([], st)
  | some sid =>
    match getRoomBySessionId st sid with
    | none => ([], st)
    | some (roomId, _) =>
      match getPeerSocketId st roomId sid with
      | none => ([], st)
      | some p => ([⟨p, EventOut.peerSecurityAlert data⟩], st)

/-- The `chat-ready` handler (`handlers.js` lines 339-346). -/
def chatReadyHandler (st : ServerState) (c : String) :
    List Emit × ServerState :=
  match liveSession st c with
  | none => ([], st)
  | some sid =>
    match getRoomBySessionId st sid with
    | none => ([], st)
    | some (roomId, _) =>
      match getPeerSocketId st roomId sid with
      | none => ([], st)
      | some p => ([⟨p, EventOut.peerReady⟩], st)

/-- The `report` handler (`handlers.js` lines 351-368): both recorded
sockets are notified and the room destroyed. -/
def reportHandler (st : ServerState) (c : String) :
    List Emit × ServerState :=
  match liveSession st c with
  | none => ([], st)
  | some sid =>
    match getRoomBySessionId st sid with
    | none => ([], st)
    | some (roomId, room) =>
      ([⟨room.session1.socketId, EventOut.chatEnded "Chat ended due to a report."⟩,
        ⟨room.session2.socketId, EventOut.chatEnded "Chat ended due to a report."⟩],
       destroyRoom st roomId)

/-- The `leave-room` handler (`handlers.js` lines 373-375). -/
def leaveRoomHandler (st : ServerState) (c : String) :
    List Emit × ServerState :=
  match liveSession st c with
  | none => ([], st)
  | some sid => handleDisconnectFromRoom st sid

/-- Expiry of one session: `handleExpiredSessions` of `server.js` for a
single batch entry (force-close the recorded socket with its binding
nulled, leave the queue, cancel the invite, notify the peer and destroy
the room, clear the rate counter), followed by the removal of the expired
record.  The removal is modelled from the spec: the sweeper of the
missing `sessions.js` evicts the expired session (spec 4.B and 4.G). -/
def expireSession (st : ServerState) (sid : String) :
    List Emit × ServerState :=
  match getSession st sid with
  | none => ([], st)
  | some s =>
    let (emD, st1) :=
      if s.socketId = "" then (([] : List Emit), st)
      else
        match mapGet st.conns s.socketId with
        | some _ =>
          let stA := { st with conns := mapSet st.conns s.socketId none }
          disconnectHandler stA s.socketId
        | none => ([], st)
    let st2 := leaveQueue st1 sid
    let st3 := cancelInvite st2 sid
    let activeRoom : Option String :=
      match s.roomId with
      | some rid => some rid
      | none => (getRoomBySessionId st3 sid).map (fun p => p.1)
    let (em, st4) :=
      match activeRoom with
      | some rid =>
        let em :=
          match getPeerSocketId st3 rid sid with
          | some p => [⟨p, EventOut.chatEnded "The other person has left."⟩]
          | none => ([] : List Emit)
        (em, destroyRoom st3 rid)
      | none => ([], st3)
    let st5 := clearLimit st4 sid
    (emD ++ em, removeSession st5 sid)

/-! ## Step relation and reachability -/

/-- One server step: a socket connects, one socket event handler runs, a
socket disconnects, or a session expires.  Socket ids, payloads, clock
values, random draws and fresh uuids are arbitrary. -/
inductive Step : ServerState → ServerState → Prop
  | connect (st : ServerState) (c : String) :
      Step st { st with conns := mapSet st.conns c none }
  | join (st : ServerState) (c : String) (p : Option String) :
      Step st (joinHandler st c p).2
  | findRandom (st : ServerState) (c fresh : String) :
      Step st (findRandomHandler st c fresh).2
  | cancelSearch (st : ServerState) (c : String) :
      Step st (cancelSearchHandler st c).2
  | createInvite (st : ServerState) (c : String) (cands : List Nat) (now : Int) :
      Step st (createInviteHandler st c cands now).2
  | joinInvite (st : ServerState) (c : String) (p : Option String)
      (now : Int) (fresh : String) :
      Step st (joinInviteHandler st c p now fresh).2
  | keyExchange (st : ServerState) (c : String) (p : Option String) :
      Step st (keyExchangeHandler st c p).2
  | sendEncrypted (st : ServerState) (c : String) (p : Option String) (now : Int) :
      Step st (sendEncryptedHandler st c p now).2
  | securityAlert (st : ServerState) (c : String) (d : Option String) :
      Step st (securityAlertHandler st c d).2
  | chatReady (st : ServerState) (c : String) :
      Step st (chatReadyHandler st c).2
  | report (st : ServerState) (c : String) :
      Step st (reportHandler st c).2
  | leaveRoom (st : ServerState) (c : String) :
      Step st (leaveRoomHandler st c).2
  | disconnect (st : ServerState) (c : String) :
      Step st (disconnectHandler st c).2
  | expire (st : ServerState) (sid : String) :
      Step st (expireSession st sid).2

/-- States reachable from a fresh server by handler steps. -/
inductive Reachable : ServerState → Prop
  | base : Reachable initState
  | step {st st' : ServerState} :
      Reachable st → Step st st' → Reachable st'

/-- Queue invariant of claim C9: no duplicated session id, and no queued
session whose registry record is bound to a room. -/
def queueInv (st : ServerState) : Prop :=
  (st.waitingQueue.map Participant.sessionId).Nodup ∧
  ∀ e ∈ st.waitingQueue, ∀ s, mapGet st.sessions e.sessionId = some s →
    s.roomId = none

/-! ## Concrete example states -/

/-- Example state: session `A` (socket `c1`) and session `P` (socket
`cp`) matched in room `r`. -/
def stPairAP : ServerState :=
  { conns := [("c1", some "A"), ("cp", some "P")],
    sessions := [("A", ⟨"c1", some "r"⟩), ("P", ⟨"cp", some "r"⟩)],
    waitingQueue := [], rooms := [("r", ⟨⟨"A", "c1"⟩, ⟨"P", "cp"⟩⟩)],
    invites := [], rateLimits := [] }

/-- Example state: thepair state with rate counters for both members. -/
def stPairRated : ServerState :=
  { stPairAP with rateLimits := [("A", ⟨3, 0⟩), ("P", ⟨5, 0⟩)] }

/-- Example state: a single idle registered session `A` on socket `c1`. -/
def stIdleA : ServerState :=
  { conns := [("c1", some "A")],
    sessions := [("A", ⟨"c1", none⟩)],
    waitingQueue := [], rooms := [], invites := [], rateLimits := [] }

/-- Example state: idle session `A` owning invite code `TALK-00FF`. -/
def stInviteA : ServerState :=
  { stIdleA with invites := [("TALK-00FF", ⟨"A", "c1", 0⟩)] }

/-- Invite store holding the ten codes `TALK-0000` … `TALK-0009`. -/
def inviteStore10 : List (String × Invite) :=
  (List.range 10).map (fun n => (talkCode n, ⟨"X", "cx", 0⟩))

/-- Payload whose base64 size estimate is exactly 35 MiB. -/
def payloadAtLimit : String := String.mk (List.replicate 48933547 'A')

/-- Payload whose base64 size estimate is 35 MiB plus one byte. -/
def payloadOverLimit : String := String.mk (List.replicate 48933548 'A')

/-! ## Association-list lemmas -/

theorem mapGet_mapSet_self {α : Type} (m : List (String × α)) (k : String)
    (v : α) : mapGet (mapSet m k v) k = some v := by
  induction m with
  | nil => simp [mapSet, mapGet]
  | cons p rest ih =>
    obtain ⟨k', v'⟩ := p
    by_cases h : k' = k
    · simp [mapSet, h, mapGet]
    · simp [mapSet, h, mapGet, ih]

theorem mapGet_mapSet_ne {α : Type} (m : List (String × α)) {k q : String}
    (v : α) (h : k ≠ q) : mapGet (mapSet m k v) q = mapGet m q := by
  induction m with
  | nil => simp [mapSet, mapGet, h]
  | cons p rest ih =>
    obtain ⟨k', v'⟩ := p
    by_cases hk : k' = k
    · subst hk; simp [mapSet, mapGet, h]
    · simp [mapSet, hk, mapGet, ih]

theorem mapGet_mapDelete_self {α : Type} (m : List (String × α))
    (k : String) : mapGet (mapDelete m k) k = none := by
  induction m with
  | nil => simp [mapDelete, mapGet]
  | cons p rest ih =>
    obtain ⟨k', v'⟩ := p
    by_cases h : k' = k
    · simp [mapDelete, h, ih]
    · simp [mapDelete, h, mapGet, ih]

theorem mapGet_mapDelete_ne {α : Type} (m : List (String × α)) {k q : String}
    (h : k ≠ q) : mapGet (mapDelete m k) q = mapGet m q := by
  induction m with
  | nil => simp [mapDelete]
  | cons p rest ih =>
    obtain ⟨k', v'⟩ := p
    by_cases hk : k' = k
    · subst hk; simp [mapDelete, mapGet, h, ih]
    · simp [mapDelete, hk, mapGet, ih]

theorem mapGet_mapDelete {α : Type} (m : List (String × α)) (k q : String) :
    mapGet (mapDelete m k) q = if k = q then none else mapGet m q := by
  by_cases h : k = q
  · subst h; simp [mapGet_mapDelete_self]
  · simp [h, mapGet_mapDelete_ne m h]

/-! ## Claim C6: fixed-window rate limiter -/

theorem rateState_eq (t : Int) :
    ∀ n : Nat, 1 ≤ n → rateState t n = some ⟨min n 30, t⟩ := by
  intro n hn
  induction n with
  | zero => omega
  | succ m ih =>
    by_cases hm : 1 ≤ m
    · have hrs := ih hm
      rw [rateState, hrs]
      simp only [isAllowed, WINDOW_MS, MAX_MESSAGES_PER_WINDOW]
      by_cases h30 : 30 ≤ m
      · have : min m 30 = 30 := by omega
        rw [this]
        norm_num
        omega
      · have hlt : min m 30 = m := by omega
        rw [hlt]
        have : ¬ (m ≥ 30) := by omega
        simp [this]
        omega
    · have : m = 0 := by omega
      subst this
      simp [rateState, isAllowed]

/-- Claim C6: `isAllowed` implements a fixed 60-second window with limit
30.  With no counter, or when `now - windowStart` exceeds the window, a
counter `{count := 1, windowStart := now}` is installed and the call is
allowed; within a window the 30th call is allowed and the 31st denied
(the counter untouched); once the window has elapsed the next call is
allowed again with a reset counter. -/
theorem isAllowed_fixed_window (now t t' : Int) (e : RateEntry) :
    isAllowed now none = (true, ⟨1, now⟩) ∧
    (now - e.windowStart > WINDOW_MS →
      isAllowed now (some e) = (true, ⟨1, now⟩)) ∧
    (now - e.windowStart ≤ WINDOW_MS → e.count ≥ 30 →
      isAllowed now (some e) = (false, e)) ∧
    (now - e.windowStart ≤ WINDOW_MS → e.count < 30 →
      isAllowed now (some e) = (true, ⟨e.count + 1, e.windowStart⟩)) ∧
    (isAllowed t (rateState t 29)).1 = true ∧
    (isAllowed t (rateState t 30)).1 = false ∧
    (t' - t > WINDOW_MS →
      isAllowed t' (rateState t 30) = (true, ⟨1, t'⟩)) := by
  refine ⟨rfl, ?_, ?_, ?_, ?_, ?_, ?_⟩
  · intro h
    simp [isAllowed, h]
  · intro h1 h2
    simp [isAllowed, MAX_MESSAGES_PER_WINDOW, not_lt.mpr, h2]
    omega
  · intro h1 h2
    have : ¬ (now - e.windowStart > WINDOW_MS) := by omega
    simp [isAllowed, this, MAX_MESSAGES_PER_WINDOW]
    omega
  · rw [rateState_eq t 29 (by norm_num)]
    simp [isAllowed, WINDOW_MS, MAX_MESSAGES_PER_WINDOW]
  · rw [rateState_eq t 30 (by norm_num)]
    simp [isAllowed, WINDOW_MS, MAX_MESSAGES_PER_WINDOW]
  · intro h
    rw [rateState_eq t 30 (by norm_num)]
    simp only [isAllowed, min_self]
    rw [if_pos h]

/-- Witness for C6: a concrete expired window is reset and allowed. -/
theorem isAllowed_fixed_window_witness :
    isAllowed 100000 (some ⟨5, 0⟩) = (true, ⟨1, 100000⟩) :=
  (isAllowed_fixed_window 100000 0 0 ⟨5, 0⟩).2.1 (by norm_num [WINDOW_MS])

/-! ## Claims C4 and C8: invite allocation and redemption -/

theorem hexDigit_upperHex : ∀ d : Nat, d < 16 → isUpperHexChar (hexDigit d) := by
  decide

theorem hexUpper4_format (n : Nat) :
    (hexUpper4 n).length = 4 ∧ ∀ ch ∈ (hexUpper4 n).data, isUpperHexChar ch := by
  refine ⟨rfl, ?_⟩
  intro ch hch
  have h1 : n % 65536 / 4096 < 16 := by omega
  have h2 : n % 65536 / 256 % 16 < 16 := by omega
  have h3 : n % 65536 / 16 % 16 < 16 := by omega
  have h4 : n % 65536 % 16 < 16 := by omega
  have hl : (hexUpper4 n).data =
      [hexDigit (n % 65536 / 4096), hexDigit (n % 65536 / 256 % 16),
       hexDigit (n % 65536 / 16 % 16), hexDigit (n % 65536 % 16)] := rfl
  rw [hl] at hch
  simp only [List.mem_cons, List.not_mem_nil, or_false] at hch
  rcases hch with h | h | h | h <;> subst h
  · exact hexDigit_upperHex _ h1
  · exact hexDigit_upperHex _ h2
  · exact hexDigit_upperHex _ h3
  · exact hexDigit_upperHex _ h4

theorem createInviteMem_spec (sid sock : String) (now : Int) :
    ∀ (cands : List Nat) (inv : List (String × Invite))
      (code : String) (inv' : List (String × Invite)),
      createInviteMem inv sid sock now cands = some (code, inv') →
      ∃ n, n ∈ cands ∧ code = talkCode n ∧ mapGet inv code = none ∧
        inv' = mapSet inv code ⟨sid, sock, now⟩ := by
  intro cands
  induction cands with
  | nil => intro inv code inv' h; cases h
  | cons n rest ih =>
    intro inv code inv' h
    rw [createInviteMem] at h
    by_cases hc : (mapGet inv (talkCode n)).isSome
    · rw [if_pos hc] at h
      obtain ⟨m, hm, rest'⟩ := ih inv code inv' h
      exact ⟨m, List.mem_cons_of_mem _ hm, rest'⟩
    · rw [if_neg hc] at h
      obtain ⟨h1, h2⟩ := Prod.mk.injEq .. ▸ Option.some.injEq .. ▸ h
      refine ⟨n, List.mem_cons_self .., ?_, ?_, ?_⟩
      · exact h1.symm
      · rw [← h1]; exact Option.not_isSome_iff_eq_none.mp hc
      · rw [← h2, ← h1]

theorem redisAttempts_exhausted (cands : Nat → Nat) (live : List String) :
    ∀ (k j : Nat), (∀ i, i < k → live.contains (talkCode (cands (j + i)))) →
      redisAttempts cands live k j = Except.error () := by
  intro k
  induction k with
  | zero => intro j _; rfl
  | succ m ih =>
    intro j h
    rw [redisAttempts]
    have h0 : live.contains (talkCode (cands j)) := by
      have := h 0 (Nat.succ_pos m)
      simpa using this
    rw [if_pos h0]
    apply ih
    intro i hi
    have := h (i + 1) (by omega)
    simpa [Nat.add_assoc, Nat.add_comm 1 i] using this

theorem redisAttempts_ok_form (cands : Nat → Nat) (live : List String) :
    ∀ (k j : Nat) (code : String),
      redisAttempts cands live k j = Except.ok code → ∃ m, code = talkCode m := by
  intro k
  induction k with
  | zero => intro j code h; cases h
  | succ m ih =>
    intro j code h
    rw [redisAttempts] at h
    by_cases hc : live.contains (talkCode (cands j))
    · rw [if_pos hc] at h; exact ih _ _ h
    · rw [if_neg hc] at h
      exact ⟨cands j, (Except.ok.injEq .. ▸ h).symm⟩

/-- Claim C4 (counterexample): in the memory backend the allocator does
not give up after 10 collisions.  With a store holding ten codes and a
random stream whose first ten draws all collide, the eleventh draw
succeeds and `createInvite` returns a code instead of failing. -/
theorem createInvite_no_cap_counterexample :
    (∀ n ∈ [0, 1, 2, 3, 4, 5, 6, 7, 8, 9],
      (mapGet inviteStore10 (talkCode n)).isSome) ∧
    createInviteMem inviteStore10 "B" "c2" 0 [0, 1, 2, 3, 4, 5, 6, 7, 8, 9, 10] =
      some ("TALK-000A", mapSet inviteStore10 "TALK-000A" ⟨"B", "c2", 0⟩) := by
  constructor
  · decide
  · decide

/-- Claim C4 (amended): in the shared (Redis) backend a collision is
retried with a new draw and after 10 failed attempts the call fails with
the allocation-exhausted error; in the memory backend a collision is
retried with the next draw without any attempt bound.  A successful
allocation in either backend returns `TALK-` followed by 4 uppercase hex
characters. -/
theorem createInvite_allocation (cands : Nat → Nat) (live : List String)
    (inv : List (String × Invite)) (sid sock : String) (now : Int)
    (n : Nat) (rest : List Nat) :
    ((∀ j, j < 10 → live.contains (talkCode (cands j))) →
      createInviteRedis cands live = Except.error ()) ∧
    ((mapGet inv (talkCode n)).isSome →
      createInviteMem inv sid sock now (n :: rest) =
        createInviteMem inv sid sock now rest) ∧
    (∀ code, createInviteRedis cands live = Except.ok code → talkFormat code) ∧
    (∀ code inv',
      createInviteMem inv sid sock now (n :: rest) = some (code, inv') →
      talkFormat code) := by
  have hformat : ∀ m : Nat, talkFormat (talkCode m) := fun m =>
    ⟨hexUpper4 m, rfl, (hexUpper4_format m).1, (hexUpper4_format m).2⟩
  refine ⟨?_, ?_, ?_, ?_⟩
  · intro h
    exact redisAttempts_exhausted cands live 10 0 (fun i hi => by simpa using h i hi)
  · intro h
    rw [createInviteMem, if_pos h]
  · intro code h
    obtain ⟨m, hm⟩ := redisAttempts_ok_form cands live 10 0 code h
    exact hm ▸ hformat m
  · intro code inv' h
    obtain ⟨m, _, hm, _⟩ := createInviteMem_spec sid sock now (n :: rest) inv code inv' h
    exact hm ▸ hformat m

/-- Witness for the amended C4: ten colliding draws in the shared backend
produce the allocation-exhausted error. -/
theorem createInvite_allocation_witness :
    createInviteRedis (fun j => j) ((List.range 10).map talkCode) =
      Except.error () :=
  (createInvite_allocation (fun j => j) ((List.range 10).map talkCode)
    [] "B" "c2" 0 0 []).1 (by decide)

/-- Claim C8: after `createInvite` returns code `k`, the first
`redeemInvite k` within the TTL returns the recorded issuer tuple and
deletes the invite, a second `redeemInvite k` returns none, and a
redemption after more than 5 minutes returns none, just as for a code
with no entry. -/
theorem invite_create_redeem_roundtrip (inv : List (String × Invite))
    (sid sock : String) (now : Int) (cands : List Nat) (code : String)
    (inv' : List (String × Invite)) (t : Int) :
    (createInviteMem inv sid sock now cands = some (code, inv') →
      (t - now ≤ INVITE_TTL_MS →
        redeemInvite inv' code t = (some ⟨sid, sock, now⟩, mapDelete inv' code) ∧
        (redeemInvite (mapDelete inv' code) code t).1 = none) ∧
      (t - now > INVITE_TTL_MS → (redeemInvite inv' code t).1 = none)) ∧
    (∀ badCode, mapGet inv badCode = none →
      (redeemInvite inv badCode t).1 = none) := by
  constructor
  · intro hcreate
    obtain ⟨n, _, _, hnone, hinv'⟩ :=
      createInviteMem_spec sid sock now cands inv code inv' hcreate
    have hget : mapGet inv' code = some ⟨sid, sock, now⟩ := by
      rw [hinv']; exact mapGet_mapSet_self ..
    have hhit : redeemInvite inv' code t =
        if t - now > INVITE_TTL_MS then (none, mapDelete inv' code)
        else (some ⟨sid, sock, now⟩, mapDelete inv' code) := by
      simp [redeemInvite, hget]
    constructor
    · intro htime
      constructor
      · rw [hhit, if_neg (not_lt.mpr htime)]
      · simp [redeemInvite, mapGet_mapDelete_self]
    · intro htime
      rw [hhit, if_pos htime]
  · intro badCode hmiss
    simp [redeemInvite, hmiss]

/-- Witness for C8: a concrete create/redeem round trip. -/
theorem invite_create_redeem_roundtrip_witness :
    redeemInvite [("TALK-00FF", ⟨"A", "c1", 0⟩)] "TALK-00FF" 1000 =
      (some ⟨"A", "c1", 0⟩,
        mapDelete [("TALK-00FF", ⟨"A", "c1", 0⟩)] "TALK-00FF") :=
  (((invite_create_redeem_roundtrip [] "A" "c1" 0 [255] "TALK-00FF"
      [("TALK-00FF", ⟨"A", "c1", 0⟩)] 1000).1 (by decide)).1
    (by norm_num [INVITE_TTL_MS])).1

/-! ## Claim C5: invalid `send-encrypted` payloads -/

/-- Claim C5 (counterexample): a `send-encrypted` event with a missing
`encrypted` field emits nothing at all — no `error` — and the sender's
rate counter is created by the rate check that runs first. -/
theorem sendEncrypted_invalid_counterexample :
    (sendEncryptedHandler stIdleA "c1" none 0).1 = [] ∧
    (sendEncryptedHandler stIdleA "c1" none 0).2.rateLimits = [("A", ⟨1, 0⟩)] ∧
    stIdleA.rateLimits = [] := by
  refine ⟨?_, ?_, rfl⟩ <;> decide

/-- Claim C5 (amended): a `send-encrypted` event whose `encrypted` field
is missing or not a (non-empty) string is dropped silently, with no
`error` emission; the rate check runs first, so the sender's counter is
consumed (created or incremented) when the rate limit allows, and a
rate-limit `error` is emitted when it does not. -/
theorem sendEncrypted_invalid_payload (st : ServerState) (c : String)
    (p : Option String) (now : Int) (sid : String)
    (hls : liveSession st c = some sid) (hp : p = none ∨ p = some "") :
    sendEncryptedHandler st c p now =
      if (isAllowedS st sid now).1 then ([], (isAllowedS st sid now).2)
      else ([⟨c, EventOut.errorMsg "Too many messages. Please slow down."⟩],
            (isAllowedS st sid now).2) := by
  rcases hA : isAllowedS st sid now with ⟨ok, st1⟩
  rcases hp with rfl | rfl <;>
    (cases ok <;> simp [sendEncryptedHandler, hls, hA])

/-- Witness for the amended C5: the concrete silently-dropped event. -/
theorem sendEncrypted_invalid_payload_witness :
    sendEncryptedHandler stIdleA "c1" none 0 =
      if (isAllowedS stIdleA "A" 0).1 then ([], (isAllowedS stIdleA "A" 0).2)
      else ([⟨"c1", EventOut.errorMsg "Too many messages. Please slow down."⟩],
            (isAllowedS stIdleA "A" 0).2) :=
  sendEncrypted_invalid_payload stIdleA "c1" none 0 "A" (by decide) (Or.inl rfl)

/-! ## Claim C10: silent drops in the relay handlers -/

/-- Claim C10: a `key-exchange`, `security-alert` or `chat-ready` event
from a connection with no registered session, or whose session is in no
room, or (for `key-exchange`) whose payload fails validation, emits
nothing at all: no peer event and no `error`. -/
theorem relay_handlers_silent_drop (st : ServerState) (c : String)
    (p d : Option String) :
    (liveSession st c = none →
      (keyExchangeHandler st c p).1 = [] ∧
      (securityAlertHandler st c d).1 = [] ∧
      (chatReadyHandler st c).1 = []) ∧
    ((p = none ∨ p = some "") → (keyExchangeHandler st c p).1 = []) ∧
    (∀ sid, liveSession st c = some sid → getRoomBySessionId st sid = none →
      (keyExchangeHandler st c p).1 = [] ∧
      (securityAlertHandler st c d).1 = [] ∧
      (chatReadyHandler st c).1 = []) := by
  refine ⟨?_, ?_, ?_⟩
  · intro hls
    exact ⟨by simp [keyExchangeHandler, hls],
           by simp [securityAlertHandler, hls],
           by simp [chatReadyHandler, hls]⟩
  · intro hp
    cases hls : liveSession st c with
    | none => simp [keyExchangeHandler, hls]
    | some sid => rcases hp with rfl | rfl <;> simp [keyExchangeHandler, hls]
  · intro sid hls hroom
    refine ⟨?_, ?_, ?_⟩
    · cases p with
      | none => simp [keyExchangeHandler, hls]
      | some pk =>
        by_cases hpk : pk = ""
        · simp [keyExchangeHandler, hls, hpk]
        · simp [keyExchangeHandler, hls, hpk, hroom]
    · simp [securityAlertHandler, hls, hroom]
    · simp [chatReadyHandler, hls, hroom]

/-- Witness for C10: a registered session in no room gets a silent drop. -/
theorem relay_handlers_silent_drop_witness :
    (keyExchangeHandler stIdleA "c1" (some "pk")).1 = [] :=
  ((relay_handlers_silent_drop stIdleA "c1" (some "pk") (some "x")).2.2
    "A" (by decide) (by decide)).1

/-! ## Claim C3: `join-invite` error paths -/

theorem redeemInvite_snd (inv : List (String × Invite)) (code : String)
    (t : Int) :
    (redeemInvite inv code t).2 = inv ∨
    (redeemInvite inv code t).2 = mapDelete inv code := by
  rw [redeemInvite]
  cases h : mapGet inv code with
  | none => exact Or.inl rfl
  | some v =>
    by_cases ht : t - v.createdAt > INVITE_TTL_MS
    · right; simp [ht]
    · right; simp [ht]

/-- Claim C3 (counterexample): after `A` creates an invite, redeeming its
own code yields `error` and leaves `A` roomless, but the invite store is
mutated: the invite was consumed by the redemption before the self-join
check, so the store no longer contains the invites it contained before. -/
theorem joinInvite_self_redeem_counterexample :
    (joinInviteHandler stInviteA "c1" (some "TALK-00FF") 0 "r1").1 =
      [⟨"c1", EventOut.errorMsg "Cannot join your own invite"⟩] ∧
    (joinInviteHandler stInviteA "c1" (some "TALK-00FF") 0 "r1").2.rooms = [] ∧
    (joinInviteHandler stInviteA "c1" (some "TALK-00FF") 0 "r1").2.invites = [] ∧
    stInviteA.invites ≠ [] := by
  refine ⟨?_, ?_, ?_, ?_⟩ <;> decide

/-- Claim C3 (amended): every `join-invite` that emits `error` leaves the
rooms, sessions, queue, rate counters and connections unchanged — in
particular the redeemer is not placed in a room — but the invite store is
not always unchanged: a looked-up invite is deleted even when an error
follows (an expired invite is deleted on lookup, and a redeemed invite is
consumed before the issuer and self-join checks), so the store can only
lose entries. -/
theorem joinInvite_error_no_mutation_except_invites (st : ServerState)
    (c : String) (p : Option String) (now : Int) (fresh : String)
    (h : ∃ m, (joinInviteHandler st c p now fresh).1 =
      [⟨c, EventOut.errorMsg m⟩]) :
    (joinInviteHandler st c p now fresh).2.rooms = st.rooms ∧
    (joinInviteHandler st c p now fresh).2.sessions = st.sessions ∧
    (joinInviteHandler st c p now fresh).2.waitingQueue = st.waitingQueue ∧
    (joinInviteHandler st c p now fresh).2.rateLimits = st.rateLimits ∧
    (joinInviteHandler st c p now fresh).2.conns = st.conns ∧
    (∀ sid, getRoomBySessionId (joinInviteHandler st c p now fresh).2 sid =
      getRoomBySessionId st sid) ∧
    (∀ code, mapGet (joinInviteHandler st c p now fresh).2.invites code =
      mapGet st.invites code ∨
      mapGet (joinInviteHandler st c p now fresh).2.invites code = none) := by
  obtain ⟨m, hm⟩ := h
  have main : (joinInviteHandler st c p now fresh).2.rooms = st.rooms ∧
      (joinInviteHandler st c p now fresh).2.sessions = st.sessions ∧
      (joinInviteHandler st c p now fresh).2.waitingQueue = st.waitingQueue ∧
      (joinInviteHandler st c p now fresh).2.rateLimits = st.rateLimits ∧
      (joinInviteHandler st c p now fresh).2.conns = st.conns ∧
      ((joinInviteHandler st c p now fresh).2.invites = st.invites ∨
       ∃ norm, (joinInviteHandler st c p now fresh).2.invites =
         mapDelete st.invites norm) := by
    cases hls : liveSession st c with
    | none => simp [joinInviteHandler, hls]
    | some sid =>
      cases hses : getSession st sid with
      | none => simp [joinInviteHandler, hls, hses]
      | some session =>
        have hses' : mapGet st.sessions sid = some session := hses
        by_cases hroom : session.roomId.isSome
        · simp [joinInviteHandler, hls, hses, hroom]
        · by_cases hq : isInQueue st sid
          · simp [joinInviteHandler, hls, hses, hroom, hq]
          · cases p with
            | none => simp [joinInviteHandler, hls, hses, hroom, hq]
            | some code =>
              by_cases hc : code = ""
              · simp [joinInviteHandler, hls, hses, hroom, hq, hc]
              · rcases hred : redeemInvite st.invites (jsTrim (jsToUpper code)) now
                  with ⟨invOpt, inv2⟩
                have hinv2 : inv2 = st.invites ∨
                    inv2 = mapDelete st.invites (jsTrim (jsToUpper code)) := by
                  have := redeemInvite_snd st.invites (jsTrim (jsToUpper code)) now
                  rw [hred] at this
                  exact this
                have hinv2' : inv2 = st.invites ∨
                    ∃ norm, inv2 = mapDelete st.invites norm := by
                  rcases hinv2 with h1 | h1
                  · exact Or.inl h1
                  · exact Or.inr ⟨_, h1⟩
                cases invOpt with
                | none =>
                  simp [joinInviteHandler, hls, getSession, hses', hroom, hq,
                        hc, hred, hinv2']
                | some inv =>
                  cases hses2 : mapGet st.sessions inv.sessionId with
                  | none =>
                    simp [joinInviteHandler, hls, getSession, hses', hroom, hq,
                          hc, hred, hses2, hinv2']
                  | some inviter =>
                    by_cases hroom2 : inviter.roomId.isSome
                    · simp [joinInviteHandler, hls, getSession, hses', hroom,
                            hq, hc, hred, hses2, hroom2, hinv2']
                    · by_cases hself : inv.sessionId = sid
                      · simp [joinInviteHandler, hls, getSession, hses', hroom,
                              hq, hc, hred, hses2, hroom2, hself, hinv2']
                      · exfalso
                        simp [joinInviteHandler, hls, getSession, hses', hroom,
                              hq, hc, hred, hses2, hroom2, hself] at hm
  obtain ⟨h1, h2, h3, h4, h5, h6⟩ := main
  refine ⟨h1, h2, h3, h4, h5, ?_, ?_⟩
  · intro sid
    unfold getRoomBySessionId
    rw [h1]
  · intro code
    rcases h6 with h6 | ⟨norm, h6⟩
    · exact Or.inl (by rw [h6])
    · rw [h6, mapGet_mapDelete]
      by_cases hn : norm = code
      · simp [hn]
      · simp [hn]

/-- Witness for the amended C3: the self-redemption instance. -/
theorem joinInvite_error_no_mutation_witness :
    (joinInviteHandler stInviteA "c1" (some "TALK-00FF") 0 "r1").2.rooms =
      stInviteA.rooms :=
  (joinInvite_error_no_mutation_except_invites stInviteA "c1"
    (some "TALK-00FF") 0 "r1"
    ⟨"Cannot join your own invite", by decide⟩).1

/-! ## Claim C7: base64 size estimate and the 35 MiB boundary -/

theorem estimateBase64Bytes_formula (s : String) :
    estimateBase64Bytes s = ((s.length * 3 / 4 : Nat) : Int) - (padCount s : Int) := by
  rw [estimateBase64Bytes]
  by_cases h : s.data.isEmpty
  · have hnil : s.data = [] := by
      cases hd : s.data with
      | nil => rfl
      | cons a l => rw [hd] at h; simp [List.isEmpty] at h
    have hlen : s.length = 0 := by
      simp [String.length, hnil]
    have hpad : padCount s = 0 := by
      rw [padCount, hnil]
      decide
    rw [if_pos h, hlen, hpad]
    norm_num
  · rw [if_neg h]

theorem padCount_replicateA (n : Nat) :
    padCount (String.mk (List.replicate n 'A')) = 0 := by
  have hdata : (String.mk (List.replicate n 'A')).data = List.replicate n 'A' := rfl
  have htake2 : (List.replicate n 'A').take 2 ≠ ['=', '='] := by
    intro h
    have hmem : '=' ∈ (List.replicate n 'A').take 2 := by rw [h]; simp
    have := List.eq_of_mem_replicate (List.mem_of_mem_take hmem)
    exact absurd this (by decide)
  have htake1 : (List.replicate n 'A').take 1 ≠ ['='] := by
    intro h
    have hmem : '=' ∈ (List.replicate n 'A').take 1 := by rw [h]; simp
    have := List.eq_of_mem_replicate (List.mem_of_mem_take hmem)
    exact absurd this (by decide)
  rw [padCount, hdata, List.reverse_replicate, if_neg htake2, if_neg htake1]

theorem estimate_replicateA (n : Nat) :
    estimateBase64Bytes (String.mk (List.replicate n 'A')) =
      ((n * 3 / 4 : Nat) : Int) := by
  rw [estimateBase64Bytes_formula, padCount_replicateA]
  have hlen : (String.mk (List.replicate n 'A')).length = n := by
    simp [String.length]
  rw [hlen]
  norm_num

/-- Claim C7: the size estimate used by `send-encrypted` is
`floor(len * 3 / 4) - padCount`, with `padCount` 2 for a `==` suffix, 1
for `=`, else 0; for a sender matched in a room whose rate limit allows,
a payload whose estimate is exactly 35 MiB is relayed to the peer and one
whose estimate is one byte larger is rejected with an `error`. -/
theorem sendEncrypted_size_boundary (st : ServerState)
    (c sid peerSid cp r : String) (enc : String) (now : Int)
    (hls : liveSession st c = some sid)
    (hrooms : st.rooms = [(r, ⟨⟨sid, c⟩, ⟨peerSid, cp⟩⟩)])
    (hpeer : mapGet st.sessions peerSid = some ⟨cp, some r⟩)
    (hcp : cp ≠ "")
    (hrate : mapGet st.rateLimits sid = none)
    (henc : enc ≠ "") :
    (estimateBase64Bytes enc =
        ((enc.length * 3 / 4 : Nat) : Int) - (padCount enc : Int)) ∧
    (estimateBase64Bytes enc = MAX_ENCRYPTED_BYTES →
      sendEncryptedHandler st c (some enc) now =
        ([⟨cp, EventOut.receiveEncrypted enc⟩], (isAllowedS st sid now).2)) ∧
    (estimateBase64Bytes enc = MAX_ENCRYPTED_BYTES + 1 →
      sendEncryptedHandler st c (some enc) now =
        ([⟨c, EventOut.errorMsg "Payload too large."⟩],
          (isAllowedS st sid now).2)) := by
  have hallowed : isAllowedS st sid now =
      (true, { st with rateLimits := mapSet st.rateLimits sid ⟨1, now⟩ }) := by
    simp [isAllowedS, hrate, isAllowed]
  refine ⟨estimateBase64Bytes_formula enc, ?_, ?_⟩
  · intro hsize
    have hroomFind : getRoomBySessionId
        { st with rateLimits := mapSet st.rateLimits sid ⟨1, now⟩ } sid =
        some (r, ⟨⟨sid, c⟩, ⟨peerSid, cp⟩⟩) := by
      simp [getRoomBySessionId, hrooms]
    have hpeerSock : getPeerSocketId
        { st with rateLimits := mapSet st.rateLimits sid ⟨1, now⟩ } r sid =
        some cp := by
      simp [getPeerSocketId, hrooms, mapGet, peerCurrentSocket, getSession,
            hpeer, hcp]
    simp [sendEncryptedHandler, hls, hallowed, henc, hsize,
          MAX_ENCRYPTED_BYTES, hroomFind, hpeerSock]
  · intro hsize
    simp [sendEncryptedHandler, hls, hallowed, henc, hsize,
          MAX_ENCRYPTED_BYTES]

/-- Witness for C7: a 48933547-character unpadded payload has estimate
exactly 35 MiB and is relayed in the concrete matched state. -/
theorem sendEncrypted_size_boundary_witness :
    sendEncryptedHandler stPairAP "c1" (some payloadAtLimit) 0 =
      ([⟨"cp", EventOut.receiveEncrypted payloadAtLimit⟩],
        (isAllowedS stPairAP "A" 0).2) := by
  have hne : payloadAtLimit ≠ "" := by
    intro h
    have hdata : List.replicate 48933547 'A' = ([] : List Char) :=
      congrArg String.data h
    have hlen : (List.replicate 48933547 'A').length = ([] : List Char).length :=
      congrArg List.length hdata
    rw [List.length_replicate] at hlen
    exact absurd hlen (by decide)
  have hest : estimateBase64Bytes payloadAtLimit = MAX_ENCRYPTED_BYTES := by
    rw [payloadAtLimit, estimate_replicateA 48933547]
    norm_num [MAX_ENCRYPTED_BYTES]
  exact (sendEncrypted_size_boundary stPairAP "c1" "A" "P" "cp" "r"
    payloadAtLimit 0 (by decide) rfl (by decide) (by decide) rfl hne).2.1 hest

/-- Companion witness computation for C7: the payload one byte over the
estimate boundary is rejected in the same state. -/
theorem sendEncrypted_size_boundary_witness_over :
    sendEncryptedHandler stPairAP "c1" (some payloadOverLimit) 0 =
      ([⟨"c1", EventOut.errorMsg "Payload too large."⟩],
        (isAllowedS stPairAP "A" 0).2) := by
  have hne : payloadOverLimit ≠ "" := by
    intro h
    have hdata : List.replicate 48933548 'A' = ([] : List Char) :=
      congrArg String.data h
    have hlen : (List.replicate 48933548 'A').length = ([] : List Char).length :=
      congrArg List.length hdata
    rw [List.length_replicate] at hlen
    exact absurd hlen (by decide)
  have hest : estimateBase64Bytes payloadOverLimit = MAX_ENCRYPTED_BYTES + 1 := by
    rw [payloadOverLimit, estimate_replicateA 48933548]
    norm_num [MAX_ENCRYPTED_BYTES]
  exact (sendEncrypted_size_boundary stPairAP "c1" "A" "P" "cp" "r"
    payloadOverLimit 0 (by decide) rfl (by decide) (by decide) rfl hne).2.2 hest

/-! ## Claim C2: disconnect of a matched session -/

/-- Claim C2 (counterexample): when `A` (in a room with `P`, both holding
rate counters) disconnects, `P` is notified and the room is destroyed,
but only `A`'s rate counter is cleared — `P`'s counter survives, so the
rate counters of both sessions are not cleared. -/
theorem disconnect_mid_chat_counterexample :
    (disconnectHandler stPairRated "c1").1 =
      [⟨"cp", EventOut.chatEnded "The other person has left."⟩] ∧
    (disconnectHandler stPairRated "c1").2.rooms = [] ∧
    (disconnectHandler stPairRated "c1").2.rateLimits = [("P", ⟨5, 0⟩)] := by
  refine ⟨?_, ?_, ?_⟩ <;> decide

/-- Claim C2 (amended): when one of two matched sessions disconnects,
the peer receives `chat-ended` with reason "The other person has left.",
no room remains, and the rate counter of the disconnecting session is
cleared; the peer's rate counter is left in place (it is only cleared
when the peer itself disconnects). -/
theorem disconnect_mid_chat (st : ServerState) (A B ca cb r : String)
    (rb : RateEntry)
    (hconn : mapGet st.conns ca = some (some A))
    (hA : A ≠ "")
    (hsesA : mapGet st.sessions A = some ⟨ca, some r⟩)
    (hsesB : mapGet st.sessions B = some ⟨cb, some r⟩)
    (hcb : cb ≠ "")
    (hrooms : st.rooms = [(r, ⟨⟨A, ca⟩, ⟨B, cb⟩⟩)])
    (hAB : A ≠ B)
    (hrlB : mapGet st.rateLimits B = some rb) :
    (disconnectHandler st ca).1 =
      [⟨cb, EventOut.chatEnded "The other person has left."⟩] ∧
    (disconnectHandler st ca).2.rooms = [] ∧
    mapGet (disconnectHandler st ca).2.rateLimits A = none ∧
    mapGet (disconnectHandler st ca).2.rateLimits B = some rb ∧
    getSession (disconnectHandler st ca).2 A = none := by
  have hBA : B ≠ A := Ne.symm hAB
  cases hinv : findInviteCode st.invites A <;>
    (refine ⟨?_, ?_, ?_, ?_, ?_⟩ <;>
      simp [disconnectHandler, liveSession, hconn, hA, sessionCleanup,
            leaveQueue, cancelInvite, hinv, handleDisconnectFromRoom,
            getRoomBySessionId, hrooms, List.find?, getPeerSocketId, mapGet,
            peerCurrentSocket, getSession, destroyRoom, clearSessionRoom,
            clearLimit, removeSession, hsesA, hsesB, hcb, hAB, hBA, hrlB,
            mapDelete, mapGet_mapSet_self, mapGet_mapSet_ne,
            mapGet_mapDelete_self, mapGet_mapDelete_ne])

/-- Witness for the amended C2: the concrete pair state. -/
theorem disconnect_mid_chat_witness :
    (disconnectHandler stPairRated "c1").1 =
      [⟨"cp", EventOut.chatEnded "The other person has left."⟩] :=
  (disconnect_mid_chat stPairRated "A" "P" "c1" "cp" "r" ⟨5, 0⟩
    rfl (by decide) rfl rfl (by decide) rfl (by decide) rfl).1

/-! ## Claim C1: duplicate `join` takeover -/

/-- Claim C1 (counterexample): `A` is bound to room `r` with peer `P`
and connected on `c1`; a `join` with `A`'s session id arrives on `c2`.
The handler emits a `chat-ended` peer notification to `P`'s socket for
the room `A` previously occupied (from the explicit cleanup), so the
takeover is not free of peer notifications. -/
theorem join_takeover_counterexample :
    (joinHandler stPairAP "c2" (some "A")).1 =
      [⟨"cp", EventOut.chatEnded "The other person has left."⟩,
       ⟨"c2", EventOut.joined⟩] := by
  decide

/-- Claim C1 (amended): when a `join` with session id `S` arrives on a
new connection while `S` is live on `c1` and bound to a room, `c1`'s
binding is nulled before the force-close, so `c1`'s own disconnect
handler contributes no emission; the explicit cleanup then emits
`chat-ended` to `S`'s room peer and destroys the room, and afterwards
`S` is registered with the new connection while `c1` is no longer live. -/
theorem join_takeover (st : ServerState) (S P c1 c2 cp r : String)
    (b : Option String)
    (hS : S ≠ "")
    (hses : mapGet st.sessions S = some ⟨c1, some r⟩)
    (hc12 : c1 ≠ c2)
    (hconn1 : mapGet st.conns c1 = some b)
    (hrooms : st.rooms = [(r, ⟨⟨S, c1⟩, ⟨P, cp⟩⟩)])
    (hsesP : mapGet st.sessions P = some ⟨cp, some r⟩)
    (hcp : cp ≠ "")
    (hSP : S ≠ P) :
    (joinHandler st c2 (some S)).1 =
      [⟨cp, EventOut.chatEnded "The other person has left."⟩,
       ⟨c2, EventOut.joined⟩] ∧
    mapGet (joinHandler st c2 (some S)).2.conns c1 = none ∧
    getSession (joinHandler st c2 (some S)).2 S = some ⟨c2, none⟩ ∧
    mapGet (joinHandler st c2 (some S)).2.conns c2 = some (some S) ∧
    (joinHandler st c2 (some S)).2.rooms = [] := by
  have hPS : P ≠ S := Ne.symm hSP
  have hc21 : c2 ≠ c1 := Ne.symm hc12
  cases hinv : findInviteCode st.invites S <;>
    (refine ⟨?_, ?_, ?_, ?_, ?_⟩ <;>
      simp [joinHandler, hS, getSession, hses, hc12, hconn1,
            disconnectHandler, liveSession, cleanupSessionState,
            sessionCleanup, leaveQueue, cancelInvite, hinv,
            handleDisconnectFromRoom, getRoomBySessionId, hrooms,
            List.find?, getPeerSocketId, mapGet, peerCurrentSocket,
            destroyRoom, clearSessionRoom, clearLimit, removeSession,
            addSession, hsesP, hcp, hSP, hPS, hc21, mapDelete,
            mapGet_mapSet_self, mapGet_mapSet_ne, mapGet_mapDelete_self,
            mapGet_mapDelete_ne])

/-- Witness for the amended C1: the concrete takeover instance. -/
theorem join_takeover_witness :
    getSession (joinHandler stPairAP "c2" (some "A")).2 "A" =
      some ⟨"c2", none⟩ :=
  (join_takeover stPairAP "A" "P" "c1" "c2" "cp" "r" (some "A")
    (by decide) rfl (by decide) rfl rfl rfl (by decide) (by decide)).2.2.1

/-! ## Claim C9: waiting-queue invariant, list-level lemmas -/

theorem removeFirst_sublist (q : List Participant) (sid : String) :
    List.Sublist (removeFirst q sid) q := by
  induction q with
  | nil => simp [removeFirst]
  | cons e rest ih =>
    rw [removeFirst]
    by_cases h : e.sessionId = sid
    · rw [if_pos h]
      exact List.sublist_cons_self e rest
    · rw [if_neg h]
      exact List.Sublist.cons₂ e ih

theorem mem_removeFirst (q : List Participant) (sid : String) (e : Participant)
    (h : e ∈ removeFirst q sid) : e ∈ q :=
  (removeFirst_sublist q sid).mem h

theorem nodup_removeFirst (q : List Participant) (sid : String)
    (h : (q.map Participant.sessionId).Nodup) :
    ((removeFirst q sid).map Participant.sessionId).Nodup :=
  ((removeFirst_sublist q sid).map Participant.sessionId).nodup h

theorem not_mem_removeFirst (q : List Participant) (sid : String)
    (hnd : (q.map Participant.sessionId).Nodup) :
    ∀ e ∈ removeFirst q sid, e.sessionId ≠ sid := by
  induction q with
  | nil => intro e he; cases he
  | cons a rest ih =>
    rw [List.map_cons, List.nodup_cons] at hnd
    intro e he
    rw [removeFirst] at he
    by_cases ha : a.sessionId = sid
    · rw [if_pos ha] at he
      intro hesid
      exact hnd.1 (ha ▸ hesid ▸ List.mem_map_of_mem Participant.sessionId he)
    · rw [if_neg ha] at he
      rcases List.mem_cons.mp he with rfl | he2
      · exact ha
      · exact ih hnd.2 e he2

theorem popValid_cons_valid {sess : List (String × SessionData)}
    {e : Participant} {s : SessionData} (tl : List Participant)
    (hg : mapGet sess e.sessionId = some s)
    (hv : s.socketId = e.socketId ∧ s.roomId = none) :
    popValid sess (e :: tl) = (some e, tl) := by
  simp [popValid, hg, hv]

theorem popValid_cons_skip {sess : List (String × SessionData)}
    {e : Participant} {s : SessionData} (tl : List Participant)
    (hg : mapGet sess e.sessionId = some s)
    (hv : ¬ (s.socketId = e.socketId ∧ s.roomId = none)) :
    popValid sess (e :: tl) = popValid sess tl := by
  simp only [popValid, hg, if_neg hv]

theorem popValid_cons_stale {sess : List (String × SessionData)}
    {e : Participant} (tl : List Participant)
    (hg : mapGet sess e.sessionId = none) :
    popValid sess (e :: tl) = popValid sess tl := by
  simp only [popValid, hg]

theorem popValid_none (sess : List (String × SessionData)) :
    ∀ (q rest : List Participant),
      popValid sess q = (none, rest) → rest = [] := by
  intro q
  induction q with
  | nil => intro rest h; exact ((Prod.mk.injEq .. ▸ h).2).symm
  | cons e tl ih =>
    intro rest h
    cases hg : mapGet sess e.sessionId with
    | some s =>
      by_cases hv : s.socketId = e.socketId ∧ s.roomId = none
      · rw [popValid_cons_valid tl hg hv] at h
        cases (Prod.mk.injEq .. ▸ h).1
      · rw [popValid_cons_skip tl hg hv] at h
        exact ih rest h
    | none =>
      rw [popValid_cons_stale tl hg] at h
      exact ih rest h

theorem popValid_some (sess : List (String × SessionData)) :
    ∀ (q rest : List Participant) (e : Participant),
      popValid sess q = (some e, rest) →
      (∃ pre, q = pre ++ e :: rest) ∧
      ∃ s, mapGet sess e.sessionId = some s ∧
        s.socketId = e.socketId ∧ s.roomId = none := by
  intro q
  induction q with
  | nil => intro rest e h; cases (Prod.mk.injEq .. ▸ h).1
  | cons a tl ih =>
    intro rest e h
    cases hg : mapGet sess a.sessionId with
    | some s =>
      by_cases hv : s.socketId = a.socketId ∧ s.roomId = none
      · rw [popValid_cons_valid tl hg hv] at h
        obtain ⟨h1, h2⟩ := Prod.mk.injEq .. ▸ h
        obtain rfl : a = e := Option.some.injEq .. ▸ h1
        refine ⟨⟨[], by rw [h2]; rfl⟩, s, hg, hv⟩
      · rw [popValid_cons_skip tl hg hv] at h
        obtain ⟨⟨pre, hpre⟩, hs⟩ := ih rest e h
        exact ⟨⟨a :: pre, by rw [hpre]; rfl⟩, hs⟩
    | none =>
      rw [popValid_cons_stale tl hg] at h
      obtain ⟨⟨pre, hpre⟩, hs⟩ := ih rest e h
      exact ⟨⟨a :: pre, by rw [hpre]; rfl⟩, hs⟩

/-! ## Claim C9: invariant preservation for primitive state operations -/

theorem queueInv_congr (st st' : ServerState)
    (hq : st'.waitingQueue = st.waitingQueue)
    (hs : st'.sessions = st.sessions) (h : queueInv st) : queueInv st' := by
  unfold queueInv
  rw [hq, hs]
  exact h

theorem queueInv_leaveQueue (st : ServerState) (sid : String)
    (h : queueInv st) : queueInv (leaveQueue st sid) := by
  obtain ⟨h1, h2⟩ := h
  refine ⟨nodup_removeFirst _ _ h1, ?_⟩
  intro e he s hs
  exact h2 e (mem_removeFirst _ _ _ he) s hs

theorem queueInv_cancelInvite (st : ServerState) (sid : String)
    (h : queueInv st) : queueInv (cancelInvite st sid) := by
  cases hf : findInviteCode st.invites sid with
  | some code =>
    exact queueInv_congr st _ (by simp [cancelInvite, hf])
      (by simp [cancelInvite, hf]) h
  | none =>
    exact queueInv_congr st _ (by simp [cancelInvite, hf])
      (by simp [cancelInvite, hf]) h

theorem queueInv_clearLimit (st : ServerState) (sid : String)
    (h : queueInv st) : queueInv (clearLimit st sid) :=
  queueInv_congr st _ rfl rfl h

theorem queueInv_removeSession (st : ServerState) (sid : String)
    (h : queueInv st) : queueInv (removeSession st sid) := by
  obtain ⟨h1, h2⟩ := h
  refine ⟨h1, ?_⟩
  intro e he s hs
  simp only [removeSession] at he hs
  by_cases hsid : e.sessionId = sid
  · rw [hsid, mapGet_mapDelete_self] at hs
    cases hs
  · rw [mapGet_mapDelete_ne st.sessions (fun hh => hsid hh.symm)] at hs
    exact h2 e he s hs

theorem queueInv_clearSessionRoom (st : ServerState) (sid : String)
    (h : queueInv st) : queueInv (clearSessionRoom st sid) := by
  obtain ⟨h1, h2⟩ := h
  cases hg : mapGet st.sessions sid with
  | none =>
    have heq : clearSessionRoom st sid = st := by simp [clearSessionRoom, hg]
    rw [heq]
    exact ⟨h1, h2⟩
  | some s0 =>
    have hq : (clearSessionRoom st sid).waitingQueue = st.waitingQueue := by
      simp [clearSessionRoom, hg]
    have hsig : (clearSessionRoom st sid).sessions =
        mapSet st.sessions sid { s0 with roomId := none } := by
      simp [clearSessionRoom, hg]
    refine ⟨by rw [hq]; exact h1, ?_⟩
    intro e he s hs
    rw [hq] at he
    rw [hsig] at hs
    by_cases hsid : e.sessionId = sid
    · rw [hsid, mapGet_mapSet_self] at hs
      cases hs
      rfl
    · rw [mapGet_mapSet_ne st.sessions _ (fun hh => hsid hh.symm)] at hs
      exact h2 e he s hs

theorem queueInv_destroyRoom (st : ServerState) (rid : String)
    (h : queueInv st) : queueInv (destroyRoom st rid) := by
  cases hg : mapGet st.rooms rid with
  | none =>
    have heq : destroyRoom st rid = st := by simp [destroyRoom, hg]
    rw [heq]; exact h
  | some room =>
    have h2 := queueInv_clearSessionRoom _ room.session2.sessionId
      (queueInv_clearSessionRoom st room.session1.sessionId h)
    have hq : (destroyRoom st rid).waitingQueue =
        (clearSessionRoom (clearSessionRoom st room.session1.sessionId)
          room.session2.sessionId).waitingQueue := by
      simp [destroyRoom, hg]
    have hsig : (destroyRoom st rid).sessions =
        (clearSessionRoom (clearSessionRoom st room.session1.sessionId)
          room.session2.sessionId).sessions := by
      simp [destroyRoom, hg]
    exact queueInv_congr _ _ hq hsig h2

theorem queueInv_addSession (st : ServerState) (sid c : String)
    (h : queueInv st) : queueInv (addSession st sid c) := by
  obtain ⟨h1, h2⟩ := h
  cases hg : mapGet st.sessions sid with
  | some s0 =>
    have hq : (addSession st sid c).waitingQueue = st.waitingQueue := by
      simp [addSession, hg]
    have hsig : (addSession st sid c).sessions =
        mapSet st.sessions sid { socketId := c, roomId := s0.roomId } := by
      simp [addSession, hg]
    refine ⟨by rw [hq]; exact h1, ?_⟩
    intro e he s hs
    rw [hq] at he
    rw [hsig] at hs
    by_cases hsid : e.sessionId = sid
    · rw [hsid, mapGet_mapSet_self] at hs
      cases hs
      exact h2 e he s0 (hsid ▸ hg)
    · rw [mapGet_mapSet_ne st.sessions _ (fun hh => hsid hh.symm)] at hs
      exact h2 e he s hs
  | none =>
    have hq : (addSession st sid c).waitingQueue = st.waitingQueue := by
      simp [addSession, hg]
    have hsig : (addSession st sid c).sessions =
        mapSet st.sessions sid { socketId := c, roomId := none } := by
      simp [addSession, hg]
    refine ⟨by rw [hq]; exact h1, ?_⟩
    intro e he s hs
    rw [hq] at he
    rw [hsig] at hs
    by_cases hsid : e.sessionId = sid
    · rw [hsid, mapGet_mapSet_self] at hs
      cases hs
      rfl
    · rw [mapGet_mapSet_ne st.sessions _ (fun hh => hsid hh.symm)] at hs
      exact h2 e he s hs

theorem queueInv_setSessionRoom_notin (st : ServerState) (sid rid : String)
    (hnot : ∀ e ∈ st.waitingQueue, e.sessionId ≠ sid)
    (h : queueInv st) : queueInv (setSessionRoom st sid rid) := by
  obtain ⟨h1, h2⟩ := h
  cases hg : mapGet st.sessions sid with
  | none =>
    have heq : setSessionRoom st sid rid = st := by simp [setSessionRoom, hg]
    rw [heq]
    exact ⟨h1, h2⟩
  | some s0 =>
    have hq : (setSessionRoom st sid rid).waitingQueue = st.waitingQueue := by
      simp [setSessionRoom, hg]
    have hsig : (setSessionRoom st sid rid).sessions =
        mapSet st.sessions sid { s0 with roomId := some rid } := by
      simp [setSessionRoom, hg]
    refine ⟨by rw [hq]; exact h1, ?_⟩
    intro e he s hs
    rw [hq] at he
    rw [hsig] at hs
    rw [mapGet_mapSet_ne st.sessions _ (fun hh => hnot e he hh.symm)] at hs
    exact h2 e he s hs

theorem queueInv_handleDisconnectFromRoom (st : ServerState) (sid : String)
    (h : queueInv st) : queueInv (handleDisconnectFromRoom st sid).2 := by
  rw [handleDisconnectFromRoom]
  by_cases hs : sid = ""
  · rw [if_pos hs]; exact h
  · rw [if_neg hs]
    cases hg : getRoomBySessionId st sid with
    | none => exact h
    | some p => exact queueInv_destroyRoom _ _ h

theorem queueInv_sessionCleanup (st : ServerState) (sid : String)
    (h : queueInv st) : queueInv (sessionCleanup st sid).2 := by
  have heq : (sessionCleanup st sid).2 =
      removeSession (clearLimit (handleDisconnectFromRoom
        (cancelInvite (leaveQueue st sid) sid) sid).2 sid) sid := rfl
  rw [heq]
  exact queueInv_removeSession _ _ (queueInv_clearLimit _ _
    (queueInv_handleDisconnectFromRoom _ _
      (queueInv_cancelInvite _ _ (queueInv_leaveQueue _ _ h))))

theorem queueInv_cleanupSessionState (st : ServerState) (sid : String)
    (h : queueInv st) : queueInv (cleanupSessionState st sid).2 := by
  rw [cleanupSessionState]
  by_cases hs : sid = ""
  · rw [if_pos hs]; exact h
  · rw [if_neg hs]; exact queueInv_sessionCleanup _ _ h

theorem queueInv_disconnectHandler (st : ServerState) (c : String)
    (h : queueInv st) : queueInv (disconnectHandler st c).2 := by
  rw [disconnectHandler]
  have h0 : queueInv { st with conns := mapDelete st.conns c } :=
    queueInv_congr st _ rfl rfl h
  cases hls : liveSession st c with
  | none => exact h0
  | some sid => exact queueInv_sessionCleanup _ _ h0

/-! ## Claim C9: `joinQueue` preserves the invariant -/

theorem setSessionRoom_waitingQueue (st : ServerState) (sid rid : String) :
    (setSessionRoom st sid rid).waitingQueue = st.waitingQueue := by
  cases hg : mapGet st.sessions sid <;> simp [setSessionRoom, hg]

theorem cancelInvite_waitingQueue (st : ServerState) (sid : String) :
    (cancelInvite st sid).waitingQueue = st.waitingQueue := by
  cases hf : findInviteCode st.invites sid <;> simp [cancelInvite, hf]

theorem cancelInvite_sessions (st : ServerState) (sid : String) :
    (cancelInvite st sid).sessions = st.sessions := by
  cases hf : findInviteCode st.invites sid <;> simp [cancelInvite, hf]

theorem isInQueue_false_notin (st : ServerState) (sid : String)
    (h : isInQueue st sid = false) :
    ∀ e ∈ st.waitingQueue, e.sessionId ≠ sid := by
  intro e he
  rw [isInQueue, List.any_eq_false] at h
  have := h e he
  simpa using this

theorem queueInv_joinQueue (st : ServerState) (sid sock fresh : String)
    (hroom : ∀ s, mapGet st.sessions sid = some s → s.roomId = none)
    (h : queueInv st) : queueInv (joinQueue st sid sock fresh).2 := by
  obtain ⟨h1, h2⟩ := h
  cases hin : isInQueue st sid with
  | true =>
    have heq : joinQueue st sid sock fresh = (none, st) := by
      rw [joinQueue, if_pos hin]
    rw [heq]
    exact ⟨h1, h2⟩
  | false =>
    have hnotin := isInQueue_false_notin st sid hin
    have hq1nd : ((st.waitingQueue ++
        [(⟨sid, sock⟩ : Participant)]).map Participant.sessionId).Nodup := by
      rw [List.map_append]
      refine List.Nodup.append h1 (List.nodup_singleton sid) ?_
      intro x hx hx2
      rcases List.mem_map.mp hx with ⟨e, he, rfl⟩
      rcases List.mem_singleton.mp hx2 with rfl
      exact hnotin e he rfl
    have hq1mem : ∀ e ∈ st.waitingQueue ++ [(⟨sid, sock⟩ : Participant)],
        ∀ s, mapGet st.sessions e.sessionId = some s → s.roomId = none := by
      intro e he s hs
      rcases List.mem_append.mp he with he' | he'
      · exact h2 e he' s hs
      · rcases List.mem_singleton.mp he' with rfl
        exact hroom s hs
    rcases hp1 : popValid st.sessions
        (st.waitingQueue ++ [(⟨sid, sock⟩ : Participant)]) with ⟨u1, q2⟩
    rcases hp2 : popValid st.sessions q2 with ⟨u2, q3⟩
    have hfalse : ¬ (isInQueue st sid = true) := by rw [hin]; simp
    cases u1 with
    | none =>
      have hq2 : q2 = [] := popValid_none _ _ _ hp1
      subst hq2
      have hu2 : u2 = none ∧ q3 = [] := by
        rw [popValid] at hp2
        exact ⟨(Prod.mk.injEq .. ▸ hp2).1.symm, (Prod.mk.injEq .. ▸ hp2).2.symm⟩
      obtain ⟨rfl, rfl⟩ := hu2
      have heq : (joinQueue st sid sock fresh).2 =
          { st with waitingQueue := [] } := by
        rw [joinQueue, if_neg hfalse]
        simp only [hp1, hp2]
      rw [heq]
      exact ⟨by simp, by intro e he; cases he⟩
    | some a =>
      obtain ⟨⟨pre1, hpre1⟩, sa, hsa, hsav⟩ := popValid_some _ _ _ _ hp1
      cases u2 with
      | none =>
        have hq3 : q3 = [] := popValid_none _ _ _ hp2
        subst hq3
        have heq : (joinQueue st sid sock fresh).2 =
            { st with waitingQueue := [a] } := by
          rw [joinQueue, if_neg hfalse]
          simp only [hp1, hp2]
        rw [heq]
        refine ⟨by simp, ?_⟩
        intro e he s hs
        rcases List.mem_singleton.mp he with rfl
        rw [show ({ st with waitingQueue := [e] } :
            ServerState).sessions = st.sessions from rfl] at hs
        rw [hsa] at hs
        cases hs
        exact hsav.2
      | some b =>
        obtain ⟨⟨pre2, hpre2⟩, sb, hsb, hsbv⟩ := popValid_some _ _ _ _ hp2
        have hq3subq2 : List.Sublist q3 q2 := by
          rw [hpre2]
          exact List.sublist_append_of_sublist_right
            (List.sublist_cons_self b q3)
        have hq2subq1 : List.Sublist q2
            (st.waitingQueue ++ [(⟨sid, sock⟩ : Participant)]) := by
          rw [hpre1]
          exact List.sublist_append_of_sublist_right
            (List.sublist_cons_self a q2)
        have hbq3subq1 : List.Sublist (b :: q3)
            (st.waitingQueue ++ [(⟨sid, sock⟩ : Participant)]) := by
          refine List.Sublist.trans ?_ hq2subq1
          rw [hpre2]
          exact List.sublist_append_right pre2 (b :: q3)
        have haq3subq1 : List.Sublist (a :: q3)
            (st.waitingQueue ++ [(⟨sid, sock⟩ : Participant)]) := by
          rw [hpre1]
          exact List.Sublist.trans (List.Sublist.cons₂ a hq3subq2)
            (List.sublist_append_right pre1 (a :: q2))
        have hnd_aq3 : ((a :: q3).map Participant.sessionId).Nodup :=
          ((haq3subq1.map Participant.sessionId).nodup) hq1nd
        have hnd_bq3 : ((b :: q3).map Participant.sessionId).Nodup :=
          ((hbq3subq1.map Participant.sessionId).nodup) hq1nd
        have hanotin : ∀ e ∈ q3, e.sessionId ≠ a.sessionId := by
          intro e he heq
          rw [List.map_cons, List.nodup_cons] at hnd_aq3
          exact hnd_aq3.1 (heq ▸ List.mem_map_of_mem Participant.sessionId he)
        have hbnotin : ∀ e ∈ q3, e.sessionId ≠ b.sessionId := by
          intro e he heq
          rw [List.map_cons, List.nodup_cons] at hnd_bq3
          exact hnd_bq3.1 (heq ▸ List.mem_map_of_mem Participant.sessionId he)
        have hq3nd : (q3.map Participant.sessionId).Nodup := by
          rw [List.map_cons, List.nodup_cons] at hnd_aq3
          exact hnd_aq3.2
        have heq : (joinQueue st sid sock fresh).2 =
            setSessionRoom (setSessionRoom
              { st with waitingQueue := q3,
                        rooms := mapSet st.rooms fresh (⟨a, b⟩ : Room) }
              a.sessionId fresh) b.sessionId fresh := by
          rw [joinQueue, if_neg hfalse]
          simp only [hp1, hp2]
        rw [heq]
        have hst1 : queueInv
            { st with waitingQueue := q3,
                      rooms := mapSet st.rooms fresh (⟨a, b⟩ : Room) } := by
          refine ⟨hq3nd, ?_⟩
          intro e he s hs
          exact hq1mem e ((List.Sublist.trans hq3subq2 hq2subq1).mem he) s hs
        have hst2 := queueInv_setSessionRoom_notin _ a.sessionId fresh
          hanotin hst1
        refine queueInv_setSessionRoom_notin _ b.sessionId fresh ?_ hst2
        intro e he
        rw [setSessionRoom_waitingQueue] at he
        exact hbnotin e he

/-! ## Claim C9: invariant preservation for every event handler -/

theorem queueInv_setRoomFull (st : ServerState) (rid : String) (room : Room)
    (hnot1 : ∀ e ∈ st.waitingQueue, e.sessionId ≠ room.session1.sessionId)
    (hnot2 : ∀ e ∈ st.waitingQueue, e.sessionId ≠ room.session2.sessionId)
    (h : queueInv st) : queueInv (setRoomFull st rid room) := by
  refine queueInv_setSessionRoom_notin _ _ _ ?_
    (queueInv_setSessionRoom_notin _ _ _ ?_ (queueInv_congr _ _ rfl rfl h))
  · intro e he
    rw [setSessionRoom_waitingQueue] at he
    exact hnot2 e he
  · intro e he
    exact hnot1 e he

theorem queueInv_joinHandler (st : ServerState) (c : String)
    (p : Option String) (h : queueInv st) : queueInv (joinHandler st c p).2 := by
  cases p with
  | none =>
    have heq : (joinHandler st c none).2 = st := by simp [joinHandler]
    rw [heq]; exact h
  | some sid =>
    by_cases hsid : sid = ""
    · have heq : (joinHandler st c (some sid)).2 = st := by
        simp [joinHandler, hsid]
      rw [heq]; exact h
    · cases hg : getSession st sid with
      | some existing =>
        by_cases hsock : existing.socketId = c
        · have heq : (joinHandler st c (some sid)).2 =
              { addSession st sid c with
                conns := mapSet (addSession st sid c).conns c (some sid) } := by
            simp [joinHandler, hsid, hg, hsock]
          rw [heq]
          exact queueInv_congr _ _ rfl rfl (queueInv_addSession _ _ _ h)
        · cases hcn : mapGet st.conns existing.socketId with
          | some b =>
            rcases hdc : disconnectHandler
                { st with conns := mapSet st.conns existing.socketId none }
                existing.socketId with ⟨em1, st1⟩
            rcases hcl : cleanupSessionState st1 sid with ⟨em2, st2⟩
            have heq : (joinHandler st c (some sid)).2 =
                { addSession st2 sid c with
                  conns := mapSet (addSession st2 sid c).conns c (some sid) } := by
              simp [joinHandler, hsid, hg, hsock, hcn, hdc, hcl]
            rw [heq]
            have h1 : queueInv st1 := by
              have := queueInv_disconnectHandler
                { st with conns := mapSet st.conns existing.socketId none }
                existing.socketId (queueInv_congr _ _ rfl rfl h)
              rw [hdc] at this
              exact this
            have h2 : queueInv st2 := by
              have := queueInv_cleanupSessionState st1 sid h1
              rw [hcl] at this
              exact this
            exact queueInv_congr _ _ rfl rfl (queueInv_addSession _ _ _ h2)
          | none =>
            rcases hcl : cleanupSessionState st sid with ⟨em2, st2⟩
            have heq : (joinHandler st c (some sid)).2 =
                { addSession st2 sid c with
                  conns := mapSet (addSession st2 sid c).conns c (some sid) } := by
              simp [joinHandler, hsid, hg, hsock, hcn, hcl]
            rw [heq]
            have h2 : queueInv st2 := by
              have := queueInv_cleanupSessionState st sid h
              rw [hcl] at this
              exact this
            exact queueInv_congr _ _ rfl rfl (queueInv_addSession _ _ _ h2)
      | none =>
        have heq : (joinHandler st c (some sid)).2 =
            { addSession st sid c with
              conns := mapSet (addSession st sid c).conns c (some sid) } := by
          simp [joinHandler, hsid, hg]
        rw [heq]
        exact queueInv_congr _ _ rfl rfl (queueInv_addSession _ _ _ h)

theorem queueInv_findRandomHandler (st : ServerState) (c fresh : String)
    (h : queueInv st) : queueInv (findRandomHandler st c fresh).2 := by
  cases hls : liveSession st c with
  | none =>
    have heq : (findRandomHandler st c fresh).2 = st := by
      simp [findRandomHandler, hls]
    rw [heq]; exact h
  | some sid =>
    cases hg : getSession st sid with
    | none =>
      have heq : (findRandomHandler st c fresh).2 = st := by
        simp [findRandomHandler, hls, hg]
      rw [heq]; exact h
    | some session =>
      by_cases hroom : session.roomId.isSome
      · have heq : (findRandomHandler st c fresh).2 = st := by
          simp [findRandomHandler, hls, hg, hroom]
        rw [heq]; exact h
      · have hnone : session.roomId = none := by
          cases hr : session.roomId
          · rfl
          · rw [hr] at hroom; simp at hroom
        rcases hjq : joinQueue
            (if hasInvite st sid then cancelInvite st sid else st)
            sid c fresh with ⟨m, st2⟩
        have heq : (findRandomHandler st c fresh).2 = st2 := by
          cases m with
          | some trip =>
            obtain ⟨rid, u1, u2⟩ := trip
            simp [findRandomHandler, hls, hg, hroom, hjq]
          | none => simp [findRandomHandler, hls, hg, hroom, hjq]
        rw [heq]
        have hst1 : queueInv
            (if hasInvite st sid then cancelInvite st sid else st) := by
          by_cases hi : hasInvite st sid
          · rw [if_pos hi]; exact queueInv_cancelInvite _ _ h
          · rw [if_neg hi]; exact h
        have hses1 : (if hasInvite st sid then cancelInvite st sid
            else st).sessions = st.sessions := by
          by_cases hi : hasInvite st sid
          · rw [if_pos hi]; exact cancelInvite_sessions st sid
          · rw [if_neg hi]
        have := queueInv_joinQueue
          (if hasInvite st sid then cancelInvite st sid else st) sid c fresh
          (by
            intro s hs
            rw [hses1] at hs
            rw [getSession] at hg
            rw [hg] at hs
            cases hs
            exact hnone)
          hst1
        rw [hjq] at this
        exact this

theorem queueInv_cancelSearchHandler (st : ServerState) (c : String)
    (h : queueInv st) : queueInv (cancelSearchHandler st c).2 := by
  cases hls : liveSession st c with
  | none =>
    have heq : (cancelSearchHandler st c).2 = st := by
      simp [cancelSearchHandler, hls]
    rw [heq]; exact h
  | some sid =>
    have heq : (cancelSearchHandler st c).2 =
        (handleDisconnectFromRoom (leaveQueue st sid) sid).2 := by
      simp [cancelSearchHandler, hls]
    rw [heq]
    exact queueInv_handleDisconnectFromRoom _ _ (queueInv_leaveQueue _ _ h)

theorem queueInv_createInviteHandler (st : ServerState) (c : String)
    (cands : List Nat) (now : Int) (h : queueInv st) :
    queueInv (createInviteHandler st c cands now).2 := by
  cases hls : liveSession st c with
  | none =>
    have heq : (createInviteHandler st c cands now).2 = st := by
      simp [createInviteHandler, hls]
    rw [heq]; exact h
  | some sid =>
    cases hg : getSession st sid with
    | none =>
      have heq : (createInviteHandler st c cands now).2 = st := by
        simp [createInviteHandler, hls, hg]
      rw [heq]; exact h
    | some session =>
      by_cases hroom : session.roomId.isSome
      · have heq : (createInviteHandler st c cands now).2 = st := by
          simp [createInviteHandler, hls, hg, hroom]
        rw [heq]; exact h
      · by_cases hq : isInQueue st sid
        · have heq : (createInviteHandler st c cands now).2 = st := by
            simp [createInviteHandler, hls, hg, hroom, hq]
          rw [heq]; exact h
        · have hst1 : queueInv
              (if hasInvite st sid then cancelInvite st sid else st) := by
            by_cases hi : hasInvite st sid
            · rw [if_pos hi]; exact queueInv_cancelInvite _ _ h
            · rw [if_neg hi]; exact h
          cases halloc : createInviteMem
              (if hasInvite st sid then cancelInvite st sid else st).invites
              sid c now cands with
          | some pr =>
            obtain ⟨code, inv2⟩ := pr
            have heq : (createInviteHandler st c cands now).2 =
                { (if hasInvite st sid then cancelInvite st sid else st) with
                  invites := inv2 } := by
              simp [createInviteHandler, hls, hg, hroom, hq, halloc]
            rw [heq]
            exact queueInv_congr _ _ rfl rfl hst1
          | none =>
            have heq : (createInviteHandler st c cands now).2 =
                (if hasInvite st sid then cancelInvite st sid else st) := by
              simp [createInviteHandler, hls, hg, hroom, hq, halloc]
            rw [heq]
            exact hst1

theorem queueInv_joinInviteHandler (st : ServerState) (c : String)
    (p : Option String) (now : Int) (fresh : String) (h : queueInv st) :
    queueInv (joinInviteHandler st c p now fresh).2 := by
  cases hls : liveSession st c with
  | none =>
    have heq : (joinInviteHandler st c p now fresh).2 = st := by
      simp [joinInviteHandler, hls]
    rw [heq]; exact h
  | some sid =>
    cases hg : getSession st sid with
    | none =>
      have heq : (joinInviteHandler st c p now fresh).2 = st := by
        simp [joinInviteHandler, hls, hg]
      rw [heq]; exact h
    | some session =>
      by_cases hroom : session.roomId.isSome
      · have heq : (joinInviteHandler st c p now fresh).2 = st := by
          simp [joinInviteHandler, hls, hg, hroom]
        rw [heq]; exact h
      · by_cases hq : isInQueue st sid
        · have heq : (joinInviteHandler st c p now fresh).2 = st := by
            simp [joinInviteHandler, hls, hg, hroom, hq]
          rw [heq]; exact h
        · cases p with
          | none =>
            have heq : (joinInviteHandler st c none now fresh).2 = st := by
              simp [joinInviteHandler, hls, hg, hroom, hq]
            rw [heq]; exact h
          | some code =>
            by_cases hc : code = ""
            · have heq : (joinInviteHandler st c (some code) now fresh).2 = st := by
                simp [joinInviteHandler, hls, hg, hroom, hq, hc]
              rw [heq]; exact h
            · rcases hred : redeemInvite st.invites (jsTrim (jsToUpper code)) now
                with ⟨invOpt, inv2⟩
              have hg' : mapGet st.sessions sid = some session := hg
              have hR : queueInv { st with invites := inv2 } :=
                queueInv_congr _ _ rfl rfl h
              cases invOpt with
              | none =>
                have heq : (joinInviteHandler st c (some code) now fresh).2 =
                    { st with invites := inv2 } := by
                  simp [joinInviteHandler, hls, hg, hroom, hq, hc, hred]
                rw [heq]; exact hR
              | some inv =>
                cases hg2 : mapGet st.sessions inv.sessionId with
                | none =>
                  have heq : (joinInviteHandler st c (some code) now fresh).2 =
                      { st with invites := inv2 } := by
                    simp [joinInviteHandler, hls, hg', hroom, hq, hc, hred,
                          getSession, hg2]
                  rw [heq]; exact hR
                | some inviter =>
                  by_cases hroom2 : inviter.roomId.isSome
                  · have heq : (joinInviteHandler st c (some code) now fresh).2 =
                        { st with invites := inv2 } := by
                      simp [joinInviteHandler, hls, hg', hroom, hq, hc, hred,
                            getSession, hg2, hroom2]
                    rw [heq]; exact hR
                  · by_cases hself : inv.sessionId = sid
                    · have heq : (joinInviteHandler st c (some code) now fresh).2 =
                          { st with invites := inv2 } := by
                        simp [joinInviteHandler, hls, hg', hroom, hq, hc, hred,
                              getSession, hg2, hroom2, hself]
                      rw [heq]; exact hR
                    · have heq : (joinInviteHandler st c (some code) now fresh).2 =
                          setRoomFull (setSessionRoom (setSessionRoom
                            (leaveQueue (leaveQueue { st with invites := inv2 }
                              inv.sessionId) sid) inv.sessionId fresh)
                            sid fresh) fresh
                            ⟨⟨inv.sessionId, inv.socketId⟩, ⟨sid, c⟩⟩ := by
                        simp [joinInviteHandler, hls, hg', hroom, hq, hc, hred,
                              getSession, hg2, hroom2, hself]
                      rw [heq]
                      have hnd : (({ st with invites := inv2 } :
                          ServerState).waitingQueue.map
                            Participant.sessionId).Nodup := hR.1
                      have hnot1 : ∀ e ∈ (leaveQueue (leaveQueue
                          { st with invites := inv2 } inv.sessionId)
                            sid).waitingQueue,
                          e.sessionId ≠ inv.sessionId := by
                        intro e he
                        exact not_mem_removeFirst _ _ hnd e
                          (mem_removeFirst _ _ _ he)
                      have hnot2 : ∀ e ∈ (leaveQueue (leaveQueue
                          { st with invites := inv2 } inv.sessionId)
                            sid).waitingQueue,
                          e.sessionId ≠ sid := by
                        intro e he
                        exact not_mem_removeFirst _ _
                          (nodup_removeFirst _ _ hnd) e he
                      have hst2 : queueInv (leaveQueue (leaveQueue
                          { st with invites := inv2 } inv.sessionId) sid) :=
                        queueInv_leaveQueue _ _ (queueInv_leaveQueue _ _ hR)
                      have hst3 := queueInv_setSessionRoom_notin _
                        inv.sessionId fresh hnot1 hst2
                      have hst4 := queueInv_setSessionRoom_notin _
                        sid fresh (by
                          intro e he
                          rw [setSessionRoom_waitingQueue] at he
                          exact hnot2 e he) hst3
                      refine queueInv_setRoomFull _ _ _ ?_ ?_ hst4
                      · intro e he
                        rw [setSessionRoom_waitingQueue,
                            setSessionRoom_waitingQueue] at he
                        exact hnot1 e he
                      · intro e he
                        rw [setSessionRoom_waitingQueue,
                            setSessionRoom_waitingQueue] at he
                        exact hnot2 e he

theorem keyExchange_state (st : ServerState) (c : String)
    (p : Option String) : (keyExchangeHandler st c p).2 = st := by
  cases hls : liveSession st c with
  | none => simp [keyExchangeHandler, hls]
  | some sid =>
    cases p with
    | none => simp [keyExchangeHandler, hls]
    | some pk =>
      by_cases hpk : pk = ""
      · simp [keyExchangeHandler, hls, hpk]
      · cases hr : getRoomBySessionId st sid with
        | none => simp [keyExchangeHandler, hls, hpk, hr]
        | some pr =>
          cases hpeer : getPeerSocketId st pr.1 sid with
          | none => simp [keyExchangeHandler, hls, hpk, hr, hpeer]
          | some q => simp [keyExchangeHandler, hls, hpk, hr, hpeer]

theorem securityAlert_state (st : ServerState) (c : String)
    (d : Option String) : (securityAlertHandler st c d).2 = st := by
  cases hls : liveSession st c with
  | none => simp [securityAlertHandler, hls]
  | some sid =>
    cases hr : getRoomBySessionId st sid with
    | none => simp [securityAlertHandler, hls, hr]
    | some pr =>
      cases hpeer : getPeerSocketId st pr.1 sid with
      | none => simp [securityAlertHandler, hls, hr, hpeer]
      | some q => simp [securityAlertHandler, hls, hr, hpeer]

theorem chatReady_state (st : ServerState) (c : String) :
    (chatReadyHandler st c).2 = st := by
  cases hls : liveSession st c with
  | none => simp [chatReadyHandler, hls]
  | some sid =>
    cases hr : getRoomBySessionId st sid with
    | none => simp [chatReadyHandler, hls, hr]
    | some pr =>
      cases hpeer : getPeerSocketId st pr.1 sid with
      | none => simp [chatReadyHandler, hls, hr, hpeer]
      | some q => simp [chatReadyHandler, hls, hr, hpeer]

theorem queueInv_sendEncryptedHandler (st : ServerState) (c : String)
    (p : Option String) (now : Int) (h : queueInv st) :
    queueInv (sendEncryptedHandler st c p now).2 := by
  cases hls : liveSession st c with
  | none =>
    have heq : (sendEncryptedHandler st c p now).2 = st := by
      simp [sendEncryptedHandler, hls]
    rw [heq]; exact h
  | some sid =>
    rcases hA : isAllowedS st sid now with ⟨ok, st1⟩
    have hinv1 : queueInv st1 := by
      have hsnd : (isAllowedS st sid now).2 = st1 := by rw [hA]
      rw [← hsnd]
      exact queueInv_congr _ _ rfl rfl h
    cases ok with
    | false =>
      have heq : (sendEncryptedHandler st c p now).2 = st1 := by
        simp [sendEncryptedHandler, hls, hA]
      rw [heq]; exact hinv1
    | true =>
      cases p with
      | none =>
        have heq : (sendEncryptedHandler st c none now).2 = st1 := by
          simp [sendEncryptedHandler, hls, hA]
        rw [heq]; exact hinv1
      | some enc =>
        by_cases henc : enc = ""
        · have heq : (sendEncryptedHandler st c (some enc) now).2 = st1 := by
            simp [sendEncryptedHandler, hls, hA, henc]
          rw [heq]; exact hinv1
        · by_cases hsize : estimateBase64Bytes enc > MAX_ENCRYPTED_BYTES
          · have heq : (sendEncryptedHandler st c (some enc) now).2 = st1 := by
              simp [sendEncryptedHandler, hls, hA, henc, hsize]
            rw [heq]; exact hinv1
          · cases hr : getRoomBySessionId st1 sid with
            | none =>
              have heq : (sendEncryptedHandler st c (some enc) now).2 = st1 := by
                simp [sendEncryptedHandler, hls, hA, henc, hsize, hr]
              rw [heq]; exact hinv1
            | some pr =>
              cases hpeer : getPeerSocketId st1 pr.1 sid with
              | none =>
                have heq : (sendEncryptedHandler st c (some enc) now).2 = st1 := by
                  simp [sendEncryptedHandler, hls, hA, henc, hsize, hr, hpeer]
                rw [heq]; exact hinv1
              | some q =>
                have heq : (sendEncryptedHandler st c (some enc) now).2 = st1 := by
                  simp [sendEncryptedHandler, hls, hA, henc, hsize, hr, hpeer]
                rw [heq]; exact hinv1

theorem queueInv_reportHandler (st : ServerState) (c : String)
    (h : queueInv st) : queueInv (reportHandler st c).2 := by
  cases hls : liveSession st c with
  | none =>
    have heq : (reportHandler st c).2 = st := by simp [reportHandler, hls]
    rw [heq]; exact h
  | some sid =>
    cases hr : getRoomBySessionId st sid with
    | none =>
      have heq : (reportHandler st c).2 = st := by simp [reportHandler, hls, hr]
      rw [heq]; exact h
    | some pr =>
      have heq : (reportHandler st c).2 = destroyRoom st pr.1 := by
        simp [reportHandler, hls, hr]
      rw [heq]
      exact queueInv_destroyRoom _ _ h

theorem queueInv_leaveRoomHandler (st : ServerState) (c : String)
    (h : queueInv st) : queueInv (leaveRoomHandler st c).2 := by
  cases hls : liveSession st c with
  | none =>
    have heq : (leaveRoomHandler st c).2 = st := by
      simp [leaveRoomHandler, hls]
    rw [heq]; exact h
  | some sid =>
    have heq : (leaveRoomHandler st c).2 =
        (handleDisconnectFromRoom st sid).2 := by
      simp [leaveRoomHandler, hls]
    rw [heq]
    exact queueInv_handleDisconnectFromRoom _ _ h

theorem queueInv_expireSession (st : ServerState) (sid : String)
    (h : queueInv st) : queueInv (expireSession st sid).2 := by
  cases hg : getSession st sid with
  | none =>
    have heq : (expireSession st sid).2 = st := by simp [expireSession, hg]
    rw [heq]; exact h
  | some s =>
    rcases hd : (if s.socketId = "" then (([] : List Emit), st)
        else
          match mapGet st.conns s.socketId with
          | some _ =>
            disconnectHandler
              { st with conns := mapSet st.conns s.socketId none }
              s.socketId
          | none => ([], st)) with ⟨emD, st1⟩
    have hinv1 : queueInv st1 := by
      by_cases hsock : s.socketId = ""
      · rw [if_pos hsock] at hd
        cases hd
        exact h
      · rw [if_neg hsock] at hd
        cases hcn : mapGet st.conns s.socketId with
        | some b =>
          rw [hcn] at hd
          have := queueInv_disconnectHandler
            { st with conns := mapSet st.conns s.socketId none }
            s.socketId (queueInv_congr _ _ rfl rfl h)
          have hsnd := congrArg Prod.snd hd
          simp only at hsnd
          rw [hsnd] at this
          exact this
        | none =>
          rw [hcn] at hd
          cases hd
          exact h
    have hinv3 : queueInv (cancelInvite (leaveQueue st1 sid) sid) :=
      queueInv_cancelInvite _ _ (queueInv_leaveQueue _ _ hinv1)
    cases hsr : s.roomId with
    | some rid =>
      have heq : (expireSession st sid).2 =
          removeSession (clearLimit (destroyRoom
            (cancelInvite (leaveQueue st1 sid) sid) rid) sid) sid := by
        rcases hpeer : getPeerSocketId (cancelInvite (leaveQueue st1 sid) sid)
            rid sid with _ | q
        · simp [expireSession, hg, hd, hsr, hpeer]
        · simp [expireSession, hg, hd, hsr, hpeer]
      rw [heq]
      exact queueInv_removeSession _ _ (queueInv_clearLimit _ _
        (queueInv_destroyRoom _ _ hinv3))
    | none =>
      cases hrb : getRoomBySessionId (cancelInvite (leaveQueue st1 sid) sid)
          sid with
      | none =>
        have heq : (expireSession st sid).2 =
            removeSession (clearLimit (cancelInvite (leaveQueue st1 sid) sid)
              sid) sid := by
          simp [expireSession, hg, hd, hsr, hrb]
        rw [heq]
        exact queueInv_removeSession _ _ (queueInv_clearLimit _ _ hinv3)
      | some pr =>
        have heq : (expireSession st sid).2 =
            removeSession (clearLimit (destroyRoom
              (cancelInvite (leaveQueue st1 sid) sid) pr.1) sid) sid := by
          rcases hpeer : getPeerSocketId
              (cancelInvite (leaveQueue st1 sid) sid) pr.1 sid with _ | q
          · simp [expireSession, hg, hd, hsr, hrb, hpeer]
          · simp [expireSession, hg, hd, hsr, hrb, hpeer]
        rw [heq]
        exact queueInv_removeSession _ _ (queueInv_clearLimit _ _
          (queueInv_destroyRoom _ _ hinv3))

/-- Every server step preserves the queue invariant. -/
theorem queueInv_step (st st' : ServerState) (hs : Step st st')
    (h : queueInv st) : queueInv st' := by
  cases hs with
  | connect c => exact queueInv_congr _ _ rfl rfl h
  | join c p => exact queueInv_joinHandler st c p h
  | findRandom c fresh => exact queueInv_findRandomHandler st c fresh h
  | cancelSearch c => exact queueInv_cancelSearchHandler st c h
  | createInvite c cands now =>
    exact queueInv_createInviteHandler st c cands now h
  | joinInvite c p now fresh =>
    exact queueInv_joinInviteHandler st c p now fresh h
  | keyExchange c p => rw [keyExchange_state]; exact h
  | sendEncrypted c p now =>
    exact queueInv_sendEncryptedHandler st c p now h
  | securityAlert c d => rw [securityAlert_state]; exact h
  | chatReady c => rw [chatReady_state]; exact h
  | report c => exact queueInv_reportHandler st c h
  | leaveRoom c => exact queueInv_leaveRoomHandler st c h
  | disconnect c => exact queueInv_disconnectHandler st c h
  | expire sid => exact queueInv_expireSession st sid h

theorem queueInv_reachable (st : ServerState) (h : Reachable st) :
    queueInv st := by
  induction h with
  | base => exact ⟨List.nodup_nil, by intro e he; cases he⟩
  | step hr hs ih => exact queueInv_step _ _ hs ih

/-- Claim C9: in every reachable state the waiting queue holds each
session id at most once and no session bound to a room; `joinQueue` on an
already-enqueued session returns no-match leaving the state untouched;
and from an empty queue, `joinQueue(A); joinQueue(A)` leaves the queue
containing `A` exactly once. -/
theorem waiting_queue_invariant (st : ServerState) (h : Reachable st) :
    queueInv st ∧
    (∀ sid sock fresh, isInQueue st sid = true →
      joinQueue st sid sock fresh = (none, st)) ∧
    (∀ sid sock f1 f2 s, st.waitingQueue = [] →
      mapGet st.sessions sid = some s → s.socketId = sock →
      s.roomId = none →
      (((joinQueue (joinQueue st sid sock f1).2 sid sock f2).2.waitingQueue.filter
        (fun e => e.sessionId = sid)).length = 1)) := by
  refine ⟨queueInv_reachable st h, ?_, ?_⟩
  · intro sid sock fresh hin
    rw [joinQueue, if_pos hin]
  · intro sid sock f1 f2 s hq hses hsock hroom
    have hin : isInQueue st sid = false := by
      rw [isInQueue, hq]
      rfl
    have hpv : popValid st.sessions [(⟨sid, sock⟩ : Participant)] =
        (some ⟨sid, sock⟩, []) :=
      popValid_cons_valid [] hses ⟨hsock, hroom⟩
    have h1 : joinQueue st sid sock f1 =
        (none, { st with waitingQueue := [⟨sid, sock⟩] }) := by
      rw [joinQueue, if_neg (by rw [hin]; simp), hq]
      simp only [List.nil_append, hpv]
      rfl
    have hin2 : isInQueue { st with waitingQueue :=
        [(⟨sid, sock⟩ : Participant)] } sid = true := by
      simp [isInQueue]
    have h2 : joinQueue { st with waitingQueue :=
        [(⟨sid, sock⟩ : Participant)] } sid sock f2 =
        (none, { st with waitingQueue := [⟨sid, sock⟩] }) := by
      rw [joinQueue, if_pos hin2]
    rw [h1, h2]
    simp [List.filter]

/-- Witness for C9: the initial state is reachable and satisfies the
invariant. -/
theorem waiting_queue_invariant_witness : queueInv initState :=
  (waiting_queue_invariant initState Reachable.base).1

end Whisper

